import Mathlib

/-!
# Shallow embedding of `src/compare_motifs_helper.cpp` (universalmotif engine)

Motifs are lists of columns; a column is a list of real entries (one per
alphabet symbol); C++ `double` is modelled by `ℝ`.  A column whose first
entry is negative is a padding marker, exactly as in the source.  The only
out-of-bounds vector access a claim depends on (`score_median` on an empty
vector) is modelled by an `Option`-valued lookup; at every other access site
the C++ index is in bounds at every call of the engine and a total
`getD`-style lookup is used.  `std::size_t` arithmetic is modelled by `ℕ`
(truncated subtraction coincides with the guarded subtractions the source
performs), `int` by `ℤ` where it can go negative.
-/

set_option linter.unusedVariables false

noncomputable section

abbrev Col := List ℝ
abbrev Mot := List Col
abbrev Bkg := List ℝ

/-- `std::numeric_limits<double>::max()`, the largest finite IEEE-754 double,
used by the engine as the "never selected" sentinel for low-information
alignments and as the skip marker in the p-value pass. -/
def dblMax : ℝ := (2 ^ 53 - 1) * 2 ^ 971

/-- Sequencing of a list of optional values: `some` of the list of results
iff every entry is `some`.  (Plumbing for the `Option`-valued embedding.) -/
def seqOpt {α : Type} : List (Option α) → Option (List α)
  | [] => some []
  | none :: _ => none
  | some v :: xs =>
      match seqOpt xs with
      | some l => some (v :: l)
      | none => none

/-- `METRICS_enum`: the name → code table.  `std::unordered_map::operator[]`
default-inserts 0 for an unknown key, hence the 0 default. -/
def METRICS_enum : String → ℕ
  | "EUCL" => 1
  | "KL" => 2
  | "HELL" => 3
  | "IS" => 4
  | "SEUCL" => 5
  | "MAN" => 6
  | "PCC" => 7
  | "SW" => 8
  | "ALLR" => 9
  | "BHAT" => 10
  | "ALLR_LL" => 11
  | _ => 0

/-- `SCORESTRAT_enum`: aggregation-strategy name → code (0 for unknown). -/
def SCORESTRAT_enum : String → ℕ
  | "sum" => 1
  | "a.mean" => 2
  | "g.mean" => 3
  | "median" => 4
  | _ => 0

/-- `STRATS_enum`: distribution-family name → code (0 for unknown). -/
def STRATS_enum : String → ℕ
  | "normal" => 1
  | "logistic" => 2
  | "weibull" => 3
  | _ => 0

/-- `score_sum`: plain accumulation of the per-column score array. -/
def score_sum (scores : List ℝ) : ℝ := scores.sum

/-- `score_amean`: sum divided by `n` (the comparable-column count). -/
def score_amean (scores : List ℝ) (n : ℕ) : ℝ := scores.sum / n

/-- `score_gmean`: accumulates `log` of the strictly positive entries, then
returns 0 when that accumulated sum is 0, else `exp (sum / scores.size())`.
Note the divisor is the length of the whole array handed in, and the zero
test is on the log-sum, exactly as in the source. -/
def score_gmean (scores : List ℝ) : ℝ :=
  let s := ((scores.filter fun x => 0 < x).map Real.log).sum
  if s = 0 then 0 else Real.exp (s / scores.length)

/-- `score_median`: sorts and takes the middle element (mean of the two
middle elements when the count is even).  For an empty vector the C++ even
branch reads index `size/2 - 1`, which for `std::size_t` wraps to
`SIZE_MAX`, and index `size/2 = 0`: both out of bounds.  The lookups are
modelled with `Option`; on the empty list they yield `none`. -/
def score_median (scores : List ℝ) : Option ℝ :=
  if scores.length = 1 then scores[0]?
  else
    let sorted := List.insertionSort (· ≤ ·) scores
    if scores.length % 2 = 0 then do
      let a ← sorted[scores.length / 2 - 1]?
      let b ← sorted[scores.length / 2]?
      pure ((a + b) / 2)
    else sorted[scores.length / 2]?

/-- `keep_good`: the comparable-column subset of the score array.  The C++
loop walks `scores` and keeps entry `i` when `good[i]` holds (`n` is only
used for `reserve`). -/
def keep_good (scores : List ℝ) (good : List Bool) (n : ℕ) : List ℝ :=
  (scores.zip good).filterMap fun p => if p.2 then some p.1 else none

/-- `calc_final_score`: dispatch on the aggregation strategy.  The unknown-
strategy default returns `-333.333` as in the source; the median branch is
`Option`-valued because `score_median` can fault on an empty subset. -/
def calc_final_score (scores : List ℝ) (strat : String) (n : ℕ)
    (good : List Bool) : Option ℝ :=
  match SCORESTRAT_enum strat with
  | 1 => some (score_sum scores)
  | 2 => some (score_amean scores n)
  | 3 => some (score_gmean (keep_good scores good n))
  | 4 => score_median (keep_good scores good n)
  | _ => some (-333.333)

/-- The comparable-column mask: column `i` is comparable when both motifs
have a non-padding column there (`mot1[i][0] >= 0 && mot2[i][0] >= 0`).
Every metric in the source recomputes this identically; it is shared here. -/
def goodCols (mot1 mot2 : Mot) : List Bool :=
  List.zipWith (fun c1 c2 => if 0 ≤ c1.headI ∧ 0 ≤ c2.headI then true else false)
    mot1 mot2

/-- Per-column squared Euclidean distance (inner loop of `compare_seucl`,
`compare_eucl` and `compare_sw`). -/
def colSEUCL (c1 c2 : Col) : ℝ := (List.zipWith (fun a b => (a - b) ^ 2) c1 c2).sum

/-- `compare_hell`: Hellinger distance per comparable column. -/
def compare_hell (mot1 mot2 : Mot) (strat : String) : Option ℝ :=
  let good := goodCols mot1 mot2
  let n := good.count true
  let ans := List.zipWith
    (fun g p => if g then
        Real.sqrt ((List.zipWith (fun a b => (Real.sqrt a - Real.sqrt b) ^ 2) p.1 p.2).sum)
          / Real.sqrt 2
      else 0)
    good (mot1.zip mot2)
  calc_final_score ans strat n good

/-- `compare_is`: Itakura-Saito distance per comparable column. -/
def compare_is (mot1 mot2 : Mot) (strat : String) : Option ℝ :=
  let good := goodCols mot1 mot2
  let n := good.count true
  let ans := List.zipWith
    (fun g p => if g then
        (List.zipWith (fun a b => a / b - Real.log (a / b) - 1) p.1 p.2).sum
      else 0)
    good (mot1.zip mot2)
  calc_final_score ans strat n good

/-- `compare_seucl`: squared Euclidean distance per comparable column. -/
def compare_seucl (mot1 mot2 : Mot) (strat : String) : Option ℝ :=
  let good := goodCols mot1 mot2
  let n := good.count true
  let ans := List.zipWith (fun g p => if g then colSEUCL p.1 p.2 else 0)
    good (mot1.zip mot2)
  calc_final_score ans strat n good

/-- `compare_man`: Manhattan distance per comparable column. -/
def compare_man (mot1 mot2 : Mot) (strat : String) : Option ℝ :=
  let good := goodCols mot1 mot2
  let n := good.count true
  let ans := List.zipWith
    (fun g p => if g then (List.zipWith (fun a b => |a - b|) p.1 p.2).sum else 0)
    good (mot1.zip mot2)
  calc_final_score ans strat n good

/-- `compare_bhat`: Bhattacharyya coefficient per comparable column. -/
def compare_bhat (mot1 mot2 : Mot) (strat : String) : Option ℝ :=
  let good := goodCols mot1 mot2
  let n := good.count true
  let ans := List.zipWith
    (fun g p => if g then (List.zipWith (fun a b => Real.sqrt (a * b)) p.1 p.2).sum else 0)
    good (mot1.zip mot2)
  calc_final_score ans strat n good

/-- `compare_eucl`: Euclidean distance per comparable column. -/
def compare_eucl (mot1 mot2 : Mot) (strat : String) : Option ℝ :=
  let good := goodCols mot1 mot2
  let n := good.count true
  let ans := List.zipWith
    (fun g p => if g then Real.sqrt (colSEUCL p.1 p.2) else 0)
    good (mot1.zip mot2)
  calc_final_score ans strat n good

/-- `compare_pcc`: Pearson correlation coefficient per comparable column,
with the zero-denominator guard producing 0 instead of a division. -/
def compare_pcc (mot1 mot2 : Mot) (strat : String) : Option ℝ :=
  let nrow := mot1.headI.length
  let good := goodCols mot1 mot2
  let n := good.count true
  let ans := List.zipWith
    (fun g p => if g then
        let top := (nrow : ℝ) * (List.zipWith (· * ·) p.1 p.2).sum - p.1.sum * p.2.sum
        let bot := Real.sqrt (((nrow : ℝ) * (p.1.map (· ^ 2)).sum - p.1.sum ^ 2)
          * ((nrow : ℝ) * (p.2.map (· ^ 2)).sum - p.2.sum ^ 2))
        if bot = 0 then 0 else top / bot
      else 0)
    good (mot1.zip mot2)
  calc_final_score ans strat n good

/-- `compare_kl`: symmetrised Kullback-Leibler divergence per comparable
column. -/
def compare_kl (mot1 mot2 : Mot) (strat : String) : Option ℝ :=
  let good := goodCols mot1 mot2
  let n := good.count true
  let ans := List.zipWith
    (fun g p => if g then
        0.5 * (List.zipWith
          (fun a b => a * Real.log (a / b) + b * Real.log (b / a)) p.1 p.2).sum
      else 0)
    good (mot1.zip mot2)
  calc_final_score ans strat n good

/-- Per-column average log-likelihood ratio (inner loops of `compare_allr`):
`(Σ_j mot2[i][j]·nsites2·log(mot1[i][j]/bkg1[j]) +
  Σ_j mot1[i][j]·nsites1·log(mot2[i][j]/bkg2[j])) / (nsites1+nsites2)`. -/
def colALLR (nrow : ℕ) (c1 c2 : Col) (bkg1 bkg2 : Bkg) (ns1 ns2 : ℝ) : ℝ :=
  (((List.range nrow).map fun j =>
      c2.getD j 0 * ns2 * Real.log (c1.getD j 0 / bkg1.getD j 0)).sum
    + ((List.range nrow).map fun j =>
      c1.getD j 0 * ns1 * Real.log (c2.getD j 0 / bkg2.getD j 0)).sum)
    / (ns1 + ns2)

/-- `compare_allr`: average log-likelihood ratio per comparable column. -/
def compare_allr (mot1 mot2 : Mot) (bkg1 bkg2 : Bkg) (ns1 ns2 : ℝ)
    (strat : String) : Option ℝ :=
  let nrow := mot1.headI.length
  let good := goodCols mot1 mot2
  let n := good.count true
  let ans := List.zipWith
    (fun g p => if g then colALLR nrow p.1 p.2 bkg1 bkg2 ns1 ns2 else 0)
    good (mot1.zip mot2)
  calc_final_score ans strat n good

/-- `compare_allr_ll`: like `compare_allr` but each per-column value is
clamped from below at `-2`. -/
def compare_allr_ll (mot1 mot2 : Mot) (bkg1 bkg2 : Bkg) (ns1 ns2 : ℝ)
    (strat : String) : Option ℝ :=
  let nrow := mot1.headI.length
  let good := goodCols mot1 mot2
  let n := good.count true
  let ans := List.zipWith
    (fun g p => if g then
        let v := colALLR nrow p.1 p.2 bkg1 bkg2 ns1 ns2
        if v < -2 then -2 else v
      else 0)
    good (mot1.zip mot2)
  calc_final_score ans strat n good

/-- `compare_sw`: Sandelin-Wasserman similarity (`2 −` squared Euclidean)
per comparable column. -/
def compare_sw (mot1 mot2 : Mot) (strat : String) : Option ℝ :=
  let good := goodCols mot1 mot2
  let n := good.count true
  let ans := List.zipWith (fun g p => if g then 2 - colSEUCL p.1 p.2 else 0)
    good (mot1.zip mot2)
  calc_final_score ans strat n good

/-- `klfix`: the motif half of the smoothing pass — add `0.01` to every
cell of the motif. -/
def klfix (mot : Mot) : Mot := mot.map fun c => c.map fun x => x + 0.01

/-- `bkgfix`: the background half of the smoothing pass — add
`0.01 * (1 / size)` to every entry, but only when some entry is exactly 0. -/
def bkgfix (bkg : Bkg) : Bkg :=
  if ∃ x ∈ bkg, x = 0 then bkg.map fun x => x + 0.01 * (1 / bkg.length) else bkg

/-- `fix_mot_bkg_zeros`: apply the smoothing pass for the metrics that
cannot tolerate zeros (codes 2 = KL, 4 = IS, 9 = ALLR, 11 = ALLR_LL);
other metrics leave motif and background untouched. -/
def fix_mot_bkg_zeros (mot : Mot) (bkg : Bkg) (method : String) : Mot × Bkg :=
  match METRICS_enum method with
  | 2 | 4 | 9 | 11 => (klfix mot, bkgfix bkg)
  | _ => (mot, bkg)

/-- A padding column: `vec_num_t(nrow, -1.0)`. -/
def padCol (nrow : ℕ) : Col := List.replicate nrow (-1)

/-- The per-side minimum-overlap targets of `equalize_mot_cols`:
`std::size_t overlap1 = overlap` truncates the double toward zero
(`Nat.floor` for the nonnegative values the engine passes); an overlap
below 1 is a fraction of each motif's own width. -/
def overlapTargets (ov : ℝ) (ncol1 ncol2 : ℕ) : ℕ × ℕ :=
  if ov < 1 then (⌊ov * ncol1⌋₊, ⌊ov * ncol2⌋₊) else (⌊ov⌋₊, ⌊ov⌋₊)

/-- `equalize_mot_cols`: compute per-side padding needs
(`toadd_i = max(0, other width − target_i)`, the guarded subtraction being
`ℕ` subtraction here); do nothing when either need is 0; otherwise pad the
motif chosen by the `ncol2 > ncol1` test on both ends with `toadd` padding
columns, and pad its IC array with `0.0` entries (note: `0.0`, not the
`-1.0` invalid marker). -/
def equalize_mot_cols (mot1 mot2 : Mot) (ic1 ic2 : List ℝ) (ov : ℝ) :
    Mot × Mot × List ℝ × List ℝ :=
  let nrow := mot1.headI.length
  let t := overlapTargets ov mot1.length mot2.length
  let ncol1_toadd := mot2.length - t.1
  let ncol2_toadd := mot1.length - t.2
  if ncol1_toadd = 0 ∨ ncol2_toadd = 0 then (mot1, mot2, ic1, ic2)
  else if mot1.length < mot2.length then
    (List.replicate ncol1_toadd (padCol nrow) ++ mot1
        ++ List.replicate ncol1_toadd (padCol nrow),
      mot2,
      List.replicate ncol1_toadd 0 ++ ic1 ++ List.replicate ncol1_toadd 0,
      ic2)
  else
    (mot1,
      List.replicate ncol2_toadd (padCol nrow) ++ mot2
        ++ List.replicate ncol2_toadd (padCol nrow),
      ic1,
      List.replicate ncol2_toadd 0 ++ ic2 ++ List.replicate ncol2_toadd 0)

/-- `get_alignlen`: number of columns that are non-padding in both motifs. -/
def get_alignlen (m1 m2 : Mot) : ℕ :=
  ((m1.zip m2).filter fun p => decide (0 ≤ p.1.headI) && decide (0 ≤ p.2.headI)).length

/-- `calc_mic`: mean of the IC entries that are `≥ 0` — entries below zero
(the `-1` invalid marker) are excluded from sum and count.  When every
entry is negative the C++ computes `0.0/0` (NaN); here `ℝ` division by
zero yields 0, a case no claim exercises. -/
def calc_mic (tic : List ℝ) : ℝ :=
  let kept := tic.filter fun x => 0 ≤ x
  kept.sum / kept.length

/-- `get_motif_rc`: reverse the column order and each column's entries. -/
def get_motif_rc (mot : Mot) : Mot := (mot.map List.reverse).reverse

/-- `fix_lowic_pos`: blank out (motif cells to `-1`, IC to `-1`) every
position of either window whose IC is below the `posic` threshold.  The
row count comes from `tmot1[0].size()` and the windows have equal length
at every call site, so the aligned `zipWith` form is exact. -/
def fix_lowic_pos (tmot1 tmot2 : Mot) (tic1 tic2 : List ℝ) (posic : ℝ) :
    Mot × Mot × List ℝ × List ℝ :=
  let nrow := tmot1.headI.length
  (List.zipWith (fun c t => if t < posic then padCol nrow else c) tmot1 tic1,
    List.zipWith (fun c t => if t < posic then padCol nrow else c) tmot2 tic2,
    tic1.map fun t => if t < posic then -1 else t,
    tic2.map fun t => if t < posic then -1 else t)

/-- `get_compare_ans`: the per-alignment slot.  A low-information alignment
receives the never-selected sentinel (`dblMax` for distance metrics,
`-dblMax` for similarity metrics); otherwise the metric runs and its result
is scaled by `tlen/alignlen` (distance) or `alignlen/tlen` (similarity).
The C++ `switch` has no default case, so an unknown metric leaves the slot
at the vector's `0.0` initializer. -/
def get_compare_ans (tmot1 tmot2 : Mot) (lowic : Bool) (norm : Bool)
    (alignlen tlen : ℕ) (method : String) (ns1 ns2 : ℝ) (bkg1 bkg2 : Bkg)
    (strat : String) : Option ℝ :=
  match METRICS_enum method with
  | 1 => if lowic then some dblMax
      else (compare_eucl tmot1 tmot2 strat).map fun x => x * tlen / alignlen
  | 2 => if lowic then some dblMax
      else (compare_kl tmot1 tmot2 strat).map fun x => x * tlen / alignlen
  | 3 => if lowic then some dblMax
      else (compare_hell tmot1 tmot2 strat).map fun x => x * tlen / alignlen
  | 4 => if lowic then some dblMax
      else (compare_is tmot1 tmot2 strat).map fun x => x * tlen / alignlen
  | 5 => if lowic then some dblMax
      else (compare_seucl tmot1 tmot2 strat).map fun x => x * tlen / alignlen
  | 6 => if lowic then some dblMax
      else (compare_man tmot1 tmot2 strat).map fun x => x * tlen / alignlen
  | 7 => if lowic then some (-dblMax)
      else (compare_pcc tmot1 tmot2 strat).map fun x => x * alignlen / tlen
  | 8 => if lowic then some (-dblMax)
      else (compare_sw tmot1 tmot2 strat).map fun x => x * alignlen / tlen
  | 9 => if lowic then some (-dblMax)
      else (compare_allr tmot1 tmot2 bkg1 bkg2 ns1 ns2 strat).map
        fun x => x * alignlen / tlen
  | 10 => if lowic then some (-dblMax)
      else (compare_bhat tmot1 tmot2 strat).map fun x => x * alignlen / tlen
  | 11 => if lowic then some (-dblMax)
      else (compare_allr_ll tmot1 tmot2 bkg1 bkg2 ns1 ns2 strat).map
        fun x => x * alignlen / tlen
  | _ => some 0

/-- First minimum of a nonempty score vector, tail recursion mirroring
`std::min_element` (strict `<` keeps the first of equal elements). -/
def ansMinVal : List ℝ → ℝ → ℝ
  | [], cur => cur
  | x :: xs, cur => ansMinVal xs (if x < cur then x else cur)

/-- First maximum, mirroring `std::max_element` (updates on strict `>`,
keeping the first of equal elements). -/
def ansMaxVal : List ℝ → ℝ → ℝ
  | [], cur => cur
  | x :: xs, cur => ansMaxVal xs (if cur < x then x else cur)

/-- `return_best_ans`: minimum of the score array for the six distance
metrics, maximum for the five similarity metric, `-1111.0` for an unknown
metric.  `std::min_element` on the engine's always-nonempty vector is the
head-seeded fold; the empty case (impossible at every call) returns the
fallback value. -/
def return_best_ans (ans : List ℝ) (method : String) : ℝ :=
  match METRICS_enum method with
  | 1 | 2 | 3 | 4 | 5 | 6 =>
      match ans with
      | [] => -1111.0
      | x :: xs => ansMinVal xs x
  | 7 | 8 | 9 | 10 | 11 =>
      match ans with
      | [] => -1111.0
      | x :: xs => ansMaxVal xs x
  | _ => -1111.0

/-- Index of the first minimum (`std::distance(begin, min_element(...))`). -/
def ansMinIdx : List ℝ → ℝ → ℕ → ℕ → ℕ
  | [], _, _, best => best
  | x :: xs, cur, i, best =>
      if x < cur then ansMinIdx xs x (i + 1) i else ansMinIdx xs cur (i + 1) best

/-- Index of the first maximum. -/
def ansMaxIdx : List ℝ → ℝ → ℕ → ℕ → ℕ
  | [], _, _, best => best
  | x :: xs, cur, i, best =>
      if cur < x then ansMaxIdx xs x (i + 1) i else ansMaxIdx xs cur (i + 1) best

/-- `return_best_ans_which`: the flattened index of the selected alignment
(first argmin for distance metrics, first argmax for similarity metrics,
`-1` for an unknown metric). -/
def return_best_ans_which (ans : List ℝ) (method : String) : ℤ :=
  match METRICS_enum method with
  | 1 | 2 | 3 | 4 | 5 | 6 =>
      match ans with
      | [] => -1
      | x :: xs => (ansMinIdx xs x 1 0 : ℤ)
  | 7 | 8 | 9 | 10 | 11 =>
      match ans with
      | [] => -1
      | x :: xs => (ansMaxIdx xs x 1 0 : ℤ)
  | _ => -1

/-- One alignment slot of the `(i, j)` offset loops shared by
`compare_motif_pair` and `merge_motif_pair_subworker`: extract the two
windows of width `minw`, apply the per-position IC blanking when
`posic > 0`, compute `alignlen`, flag low information when either window's
mean IC falls below `minic`, and hand over to `get_compare_ans`. -/
def alignment_slot (mot1 mot2 : Mot) (ic1 ic2 : List ℝ) (i j minw : ℕ)
    (method : String) (posic : ℝ) (norm : Bool) (tlen : ℕ) (minic : ℝ)
    (bkg1 bkg2 : Bkg) (ns1 ns2 : ℝ) (strat : String) : Option ℝ :=
  let tmot1 := (mot1.drop i).take minw
  let tmot2 := (mot2.drop j).take minw
  let tic1 := (ic1.drop i).take minw
  let tic2 := (ic2.drop j).take minw
  let f := if 0 < posic then fix_lowic_pos tmot1 tmot2 tic1 tic2 posic
    else (tmot1, tmot2, tic1, tic2)
  let alignlen := if norm then get_alignlen f.1 f.2.1 else tlen
  let lowic := if calc_mic f.2.2.1 < minic ∨ calc_mic f.2.2.2 < minic
    then true else false
  get_compare_ans f.1 f.2.1 lowic norm alignlen tlen method ns1 ns2 bkg1 bkg2 strat

/-- The flattened score vector of the offset loops: the C++ counter is
`counter = i * forj + j`, filled row-major, so slot `c` holds offsets
`(c / forj, c % forj)`. -/
def alignment_slots (mot1 mot2 : Mot) (ic1 ic2 : List ℝ)
    (minw fori forj tlen : ℕ) (method : String) (posic : ℝ) (norm : Bool)
    (minic : ℝ) (bkg1 bkg2 : Bkg) (ns1 ns2 : ℝ) (strat : String) :
    List (Option ℝ) :=
  (List.range (fori * forj)).map fun c =>
    alignment_slot mot1 mot2 ic1 ic2 (c / forj) (c % forj) minw method posic
      norm tlen minic bkg1 bkg2 ns1 ns2 strat

/-- Body of `compare_motif_pair` minus the reverse-complement branch:
`tlen` from the pre-equalization widths, equalize, run the offset loops,
append the reverse-complement slot when present, and select with
`return_best_ans`. -/
def compare_motif_pair_core (mot1 mot2 : Mot) (method : String)
    (moverlap : ℝ) (ic1 ic2 : List ℝ) (minic : ℝ) (norm : Bool) (posic : ℝ)
    (bkg1 bkg2 : Bkg) (ns1 ns2 : ℝ) (strat : String)
    (rcSlot : Option (Option ℝ)) : Option ℝ :=
  let tlen := max mot1.length mot2.length
  let e := equalize_mot_cols mot1 mot2 ic1 ic2 moverlap
  let minw := min e.1.length e.2.1.length
  let fori := 1 + e.1.length - minw
  let forj := 1 + e.2.1.length - minw
  let slots := alignment_slots e.1 e.2.1 e.2.2.1 e.2.2.2 minw fori forj tlen
    method posic norm minic bkg1 bkg2 ns1 ns2 strat
  let slots := match rcSlot with
    | none => slots
    | some v => slots ++ [v]
  (seqOpt slots).map fun ans => return_best_ans ans method

/-- `compare_motif_pair`.  The C++ function calls itself exactly once, with
`RC` false, on the reverse complement of the second motif (IC array
reversed), and stores that best-of-orientation score in the one extra
trailing slot of its score vector; the recursion never nests further. -/
def compare_motif_pair (mot1 mot2 : Mot) (method : String) (moverlap : ℝ)
    (RC : Bool) (ic1 ic2 : List ℝ) (minic : ℝ) (norm : Bool) (posic : ℝ)
    (bkg1 bkg2 : Bkg) (ns1 ns2 : ℝ) (strat : String) : Option ℝ :=
  match RC with
  | false => compare_motif_pair_core mot1 mot2 method moverlap ic1 ic2 minic
      norm posic bkg1 bkg2 ns1 ns2 strat none
  | true => compare_motif_pair_core mot1 mot2 method moverlap ic1 ic2 minic
      norm posic bkg1 bkg2 ns1 ns2 strat
      (some (compare_motif_pair_core mot1 (get_motif_rc mot2) method moverlap
        ic1 ic2.reverse minic norm posic bkg1 bkg2 ns1 ns2 strat none))

/-- `internal_posIC`: per-column information content.  `type = 2` is the
raw column total; `relative` gives `Σ value·log2(value/background)` with
each summand clamped at 0 from below; otherwise
`log2(alphabet size) − Shannon entropy`. -/
def internal_posIC (pos : Col) (bkg : Bkg) (type : ℤ) (relative : Bool) : ℝ :=
  if type = 2 then pos.sum
  else if relative then
    ((List.range pos.length).map fun i =>
      let tmp := pos.getD i 0 / bkg.getD i 0
      let v := pos.getD i 0 * (if 0 ≤ tmp then Real.logb 2 tmp else 0)
      if v < 0 then 0 else v).sum
  else
    Real.logb 2 pos.length
      - (pos.map fun p => if 0 < p then -p * Real.logb 2 p else 0).sum

/-- `get_merged_motif`: column-by-column combination after alignment.
Where only one motif has real data keep it; where both do, take the
weighted running average `(a·weight + b)/(weight + 1)` entry by entry
(the result column's length is `mot1[0].size()`); columns that are padding
on both sides are dropped. -/
def get_merged_motif (mot1 mot2 : Mot) (weight : ℤ) : Mot :=
  (mot1.zip mot2).filterMap fun p =>
    if p.1.headI < 0 ∧ 0 ≤ p.2.headI then some p.2
    else if p.2.headI < 0 ∧ 0 ≤ p.1.headI then some p.1
    else if 0 ≤ p.1.headI ∧ 0 ≤ p.2.headI then
      some ((List.range mot1.headI.length).map fun j =>
        (p.1.getD j 0 * (weight : ℝ) + p.2.getD j 0) / ((weight : ℝ) + 1))
    else none

/-- `merge_motif_pair_subworker`: same offset loops as
`compare_motif_pair` (no reverse-complement slot), returning both the best
score and the flattened index producing it. -/
def merge_motif_pair_subworker (mot1 mot2 : Mot) (method : String)
    (minoverlap : ℝ) (ic1 ic2 : List ℝ) (norm : Bool) (posic minic : ℝ)
    (ns1 ns2 : ℝ) (bkg1 bkg2 : Bkg) (strat : String) : Option (ℝ × ℤ) :=
  let tlen := max mot1.length mot2.length
  let e := equalize_mot_cols mot1 mot2 ic1 ic2 minoverlap
  let minw := min e.1.length e.2.1.length
  let fori := 1 + e.1.length - minw
  let forj := 1 + e.2.1.length - minw
  match seqOpt (alignment_slots e.1 e.2.1 e.2.2.1 e.2.2.2 minw fori forj tlen
      method posic norm minic bkg1 bkg2 ns1 ns2 strat) with
  | none => none
  | some ans => some (return_best_ans ans method, return_best_ans_which ans method)

/-- `add_motif_columns`: a fresh motif of `tlen` padding columns with the
original columns written at positions `add .. add + size - 1`.  (For a
negative `add` the C++ writes out of bounds; the engine only produces
nonnegative shifts at its call sites, and the model keeps only the
in-bounds writes.) -/
def add_motif_columns (mot : Mot) (tlen add : ℤ) : Mot :=
  (List.range tlen.toNat).map fun i =>
    if add ≤ (i : ℤ) ∧ (i : ℤ) < add + mot.length
    then mot.getD ((i : ℤ) - add).toNat []
    else padCol mot.headI.length

/-- Left loop of `trim_both_motifs`: advances `i` while decrementing
`mlen`, stopping at the first column that is not padding in both motifs or
when `i` catches up with `mlen` — exactly the C++
`for (i = 0; i < mlen; ++i)` with `--mlen` in the body. -/
def trim_left_loop (m1 m2 : Mot) (i tleft mlen : ℕ) : ℕ × ℕ :=
  if i < mlen then
    if (m1.getD i []).headI < 0 ∧ (m2.getD i []).headI < 0 then
      trim_left_loop m1 m2 (i + 1) (tleft + 1) (mlen - 1)
    else (tleft, mlen)
  else (tleft, mlen)
termination_by mlen - i
decreasing_by omega

/-- Right loop of `trim_both_motifs`: length of the run of columns that
are padding in both motifs, scanning down from index `n - 1` (the loop's
`i = mlen - 1`), stopping below index 0. -/
def trim_right_count (m1 m2 : Mot) : ℕ → ℕ
  | 0 => 0
  | n + 1 =>
      if (m1.getD n []).headI < 0 ∧ (m2.getD n []).headI < 0 then
        trim_right_count m1 m2 n + 1
      else 0

/-- `trim_both_motifs`: chop the window `[tleft, tleft + mlen)` out of
both motifs; when `mlen` reaches 0 the motifs are left untouched. -/
def trim_both_motifs (m1 m2 : Mot) : Mot × Mot :=
  let l := trim_left_loop m1 m2 0 0 m1.length
  let mlen := l.2 - trim_right_count m1 m2 l.2
  if 0 < mlen then ((m1.drop l.1).take mlen, (m2.drop l.1).take mlen)
  else (m1, m2)

/-- `merge_motif_pair`: find the best offset (and orientation when `RC`),
equalize, shift the motif that stayed narrower by
`offset % width − offset / width` columns (C++ truncated `int` division and
remainder, hence `Int.tmod`/`Int.tdiv`), trim columns that are padding in
both, and combine with `get_merged_motif`.  The C++ function recomputes
`overlap1`/`overlap2` at entry but never uses them (dead locals, omitted
here). -/
def merge_motif_pair (mot1 mot2 : Mot) (method : String) (minoverlap : ℝ)
    (RC : Bool) (ic1 ic2 : List ℝ) (weight : ℤ) (norm : Bool)
    (posic minic : ℝ) (ns1 ns2 : ℝ) (bkg1 bkg2 : Bkg) (strat : String) :
    Option Mot :=
  match merge_motif_pair_subworker mot1 mot2 method minoverlap ic1 ic2 norm
      posic minic ns1 ns2 bkg1 bkg2 strat with
  | none => none
  | some so =>
    let next : Option (ℤ × Mot) :=
      if RC then
        match merge_motif_pair_subworker mot1 (get_motif_rc mot2) method
            minoverlap ic1 ic2.reverse norm posic minic ns1 ns2 bkg1 bkg2 strat with
        | none => none
        | some so_rc =>
            if so.1 < so_rc.1 then some (so_rc.2, get_motif_rc mot2)
            else some (so.2, mot2)
      else some (so.2, mot2)
    match next with
    | none => none
    | some om =>
      let offset := om.1
      let e := equalize_mot_cols mot1 om.2 ic1 ic2 minoverlap
      let m1 := e.1
      let m2 := e.2.1
      let mm :=
        if m2.length < m1.length then
          (m1, add_motif_columns m2 m1.length
            (Int.tmod offset m1.length - Int.tdiv offset m1.length))
        else if m1.length < m2.length then
          (add_motif_columns m1 m2.length
            (Int.tmod offset m2.length - Int.tdiv offset m2.length), m2)
        else (m1, m2)
      let t := trim_both_motifs mm.1 mm.2
      some (get_merged_motif t.1 t.2 weight)

/-- `merge_bkg_pair`: the weighted running average of two backgrounds. -/
def merge_bkg_pair (bkg1 bkg2 : Bkg) (weight : ℤ) : Bkg :=
  (List.range bkg1.length).map fun i =>
    (bkg1.getD i 0 * (weight : ℝ) + bkg2.getD i 0) / ((weight : ℝ) + 1)

/-- `calc_ic_motif`: per-column IC of a whole motif (`type = 1`). -/
def calc_ic_motif (motif : Mot) (bkg : Bkg) (relative : Bool) : List ℝ :=
  motif.map fun col => internal_posIC col bkg 1 relative

/-- The marshaling loop of the batch entry points: every motif/background
pair goes through the smoothing pass `fix_mot_bkg_zeros`. -/
def processedPairs (mots : List Mot) (bkg : List Bkg) (method : String) :
    List (Mot × Bkg) :=
  (mots.zip bkg).map fun p => fix_mot_bkg_zeros p.1 p.2 method

/-- The processed motifs (`vmots` in the source). -/
def processedMots (mots : List Mot) (bkg : List Bkg) (method : String) :
    List Mot :=
  (processedPairs mots bkg method).map Prod.fst

/-- The processed backgrounds (`bkg` after the in-place `bkgfix` loop). -/
def processedBkgs (mots : List Mot) (bkg : List Bkg) (method : String) :
    List Bkg :=
  (processedPairs mots bkg method).map Prod.snd

/-- The per-motif IC arrays (`icscores` in the source), computed from the
processed motifs and backgrounds. -/
def icScores (mots : List Mot) (bkg : List Bkg) (method : String) (type : ℤ)
    (relative : Bool) : List (List ℝ) :=
  ((processedMots mots bkg method).zip (processedBkgs mots bkg method)).map
    fun p => p.1.map fun col => internal_posIC col p.2 type relative

/-- The computation of `compare_motifs_cpp` past its validations: score
`mots[index1[i]]` against `mots[index2[i]]` for every `i`.  The R
marshaling and the thread pool are external; each task is independent and
the worker writes only its own output slot, so the parallel loop is a
`map`.  Note the background arguments handed to `compare_motif_pair`:
`bkg[index1[i]]` is passed for BOTH backgrounds, exactly as in the
source. -/
def compare_motifs_cpp_body (mots : List Mot) (index1 index2 : List ℕ)
    (method : String) (minoverlap : ℝ) (RC : Bool) (bkg : List Bkg)
    (type : ℤ) (relative : Bool) (minic : ℝ) (norm : Bool) (posic : ℝ)
    (nsites : List ℝ) (strat : String) : Option (List ℝ) :=
  seqOpt ((List.range index1.length).map fun i =>
    compare_motif_pair
      ((processedMots mots bkg method).getD (index1.getD i 0) [])
      ((processedMots mots bkg method).getD (index2.getD i 0) [])
      method minoverlap RC
      ((icScores mots bkg method type relative).getD (index1.getD i 0) [])
      ((icScores mots bkg method type relative).getD (index2.getD i 0) [])
      minic norm posic
      ((processedBkgs mots bkg method).getD (index1.getD i 0) [])
      ((processedBkgs mots bkg method).getD (index1.getD i 0) [])
      (nsites.getD (index1.getD i 0) 0) (nsites.getD (index2.getD i 0) 0) strat)

/-- `compare_motifs_cpp` (C++ entry point): validation (`Rcpp::stop` is
`none`, with the `minoverlap < 0` clamp applied up front as in the
source), then the body above. -/
def compare_motifs_cpp (mots : List Mot) (index1 index2 : List ℕ)
    (method : String) (minoverlap : ℝ) (RC : Bool) (bkg : List Bkg)
    (type : ℤ) (relative : Bool) (minic : ℝ) (norm : Bool) (posic : ℝ)
    (nsites : List ℝ) (strat : String) : Option (List ℝ) :=
  if ¬(type = 1 ∨ type = 2) then none
  else if minic < 0 then none
  else if posic < 0 then none
  else if mots.length = 0 then none
  else if bkg.length = 0 then none
  else if mots.length ≠ bkg.length then none
  else if index1.length ≠ index2.length then none
  else if mots.any (fun m => m.length = 0) then none
  else compare_motifs_cpp_body mots index1 index2 method
    (if minoverlap < 0 then 1 else minoverlap) RC bkg type relative minic norm
    posic nsites strat

/-- `compare_columns_cpp` (C++ entry point): compare two single columns
directly with the `"sum"` strategy.  Validation failures (`Rcpp::stop`)
are `none`.  No smoothing pass is applied here. -/
def compare_columns_cpp (p1 p2 b1 b2 : Col) (n1 n2 : ℝ) (m : String) :
    Option ℝ :=
  if p1.length < 2 then none
  else if p1.length ≠ p2.length then none
  else
    match METRICS_enum m with
    | 1 => compare_eucl [p1] [p2] "sum"
    | 2 => compare_kl [p1] [p2] "sum"
    | 7 => compare_pcc [p1] [p2] "sum"
    | 8 => compare_sw [p1] [p2] "sum"
    | 9 =>
        if b1.length ≠ p1.length ∨ b2.length ≠ p1.length then none
        else if n1 ≤ 1 ∨ n2 ≤ 1 then none
        else compare_allr [p1] [p2] b1 b2 n1 n2 "sum"
    | 10 => compare_bhat [p1] [p2] "sum"
    | 3 => compare_hell [p1] [p2] "sum"
    | 4 => compare_is [p1] [p2] "sum"
    | 5 => compare_seucl [p1] [p2] "sum"
    | 6 => compare_man [p1] [p2] "sum"
    | 11 =>
        if b1.length ≠ p1.length ∨ b2.length ≠ p1.length then none
        else if n1 ≤ 1 ∨ n2 ≤ 1 then none
        else compare_allr_ll [p1] [p2] b1 b2 n1 n2 "sum"
    | _ => none

/-- Tail direction of `pval_extractor`: similarity metrics (codes 7-11)
use the upper tail (`ltail = 0`, here `false`), distance metrics the lower
tail. -/
def pvalLtail (method : String) : Bool :=
  match METRICS_enum method with
  | 7 | 8 | 9 | 10 | 11 => false
  | _ => true

/-- First row index whose `(subject, target)` pair equals `(n1, n2)` —
the inner `for` scan of the row-search loop. -/
def findRowMatch (subject target : List ℤ) (n1 n2 : ℤ) : Option ℕ :=
  (subject.zip target).findIdx? fun p => p.1 = n1 ∧ p.2 = n2

/-- One iteration of the `while (!ok)` body of `pval_extractor`: scan for
an exact row (setting `row` and `ok` on a hit), then increment both
widths, then overwrite `row` with `-1` when either width now exceeds the
table's last entry.  Note that nothing here leaves the loop: only `ok`
does, and `row = -1` does not set `ok`. -/
def searchBody (subject target : List ℤ) (n1 n2 row : ℤ) :
    ℤ × ℤ × ℤ × Bool :=
  let h := findRowMatch subject target n1 n2
  let row1 := match h with
    | some j => (j : ℤ)
    | none => row
  let ok := h.isSome
  let n1' := n1 + 1
  let n2' := n2 + 1
  let row2 := if subject.getLastD 0 < n1' ∨ target.getLastD 0 < n2' then -1 else row1
  (n1', n2', row2, ok)

/-- The `while (!ok)` loop, fuel-indexed: `none` means the loop is still
running after `fuel` iterations; `some row` is the value of `row` at exit.
The C++ loop has no other exit, so exhausting every fuel value models
divergence. -/
def searchLoop (subject target : List ℤ) : ℕ → ℤ → ℤ → ℤ → Bool → Option ℤ
  | 0, _, _, _, _ => none
  | fuel + 1, n1, n2, row, ok =>
      if ok then some row
      else
        let b := searchBody subject target n1 n2 row
        searchLoop subject target fuel b.1 b.2.1 b.2.2.1 b.2.2.2

/-- Per-score body of `pval_extractor`: skip (p-value stays `0.0`) when
the score's absolute value equals the sentinel extreme; otherwise clamp
the sorted widths into the table's supported range and run the row search;
a terminating search with `row = -1` also leaves the p-value at `0.0`.
`pcalc` abstracts the external `pval_calculator`/R CDF routines (outside
this repository); the claims hold for every such function. -/
def pvalForScore (pcalc : ℝ → ℝ → ℝ → Bool → String → ℝ)
    (ncols subject target : List ℤ) (paramA paramB : List ℝ)
    (distribution : List String) (ltail : Bool) (i1 i2 : ℕ) (score : ℝ)
    (fuel : ℕ) : Option ℝ :=
  if |score| = dblMax then some 0
  else
    let m1 := ncols.getD i1 0
    let m2 := ncols.getD i2 0
    let n1 := min m1 m2
    let n2 := max m1 m2
    let n1 := if n1 < subject.headD 0 then subject.headD 0
      else if subject.getLastD 0 < n1 then subject.getLastD 0 else n1
    let n2 := if n2 < target.headD 0 then target.headD 0
      else if target.getLastD 0 < n2 then target.getLastD 0 else n2
    match searchLoop subject target fuel n1 n2 0 false with
    | none => none
    | some row =>
        if row = -1 then some 0
        else some (pcalc score (paramA.getD row.toNat 0) (paramB.getD row.toNat 0)
          ltail (distribution.getD row.toNat ""))

/-- `pval_extractor` (C++ entry point): map the per-score body over the
score vector (`pvals` starts as all zeros; `continue` leaves an entry at
0, modelled inside `pvalForScore`).  The periodic `checkUserInterrupt` is
an external cancellation hook with no effect on the values. -/
def pval_extractor (pcalc : ℝ → ℝ → ℝ → Bool → String → ℝ)
    (ncols : List ℤ) (scores : List ℝ) (indices1 indices2 : List ℕ)
    (method : String) (subject target : List ℤ) (paramA paramB : List ℝ)
    (distribution : List String) (fuel : ℕ) : Option (List ℝ) :=
  let ltail := pvalLtail method
  seqOpt ((List.range scores.length).map fun i =>
    pvalForScore pcalc ncols subject target paramA paramB distribution ltail
      (indices1.getD i 0) (indices2.getD i 0) (scores.getD i 0) fuel)

/-! ## Definitions taken from the specification's words

Each definition below formalises a sentence of the spec for comparison with
the definitions above, which were translated from the source. -/

/-- C3's reading of the geometric-mean strategy: the exponential of the
mean of the natural logs of the strictly-positive comparable values, and 0
exactly when no comparable value is positive. -/
def gmeanSpecClaim (scores : List ℝ) : ℝ :=
  let pos := scores.filter fun x => 0 < x
  if pos = [] then 0 else Real.exp ((pos.map Real.log).sum / pos.length)

/-- C4's reading of a window's mean IC: the mean of the per-column IC
values over the non-padding columns only (a column is padding when its
first motif entry is negative). -/
def specWindowMeanIC (tmot : Mot) (tic : List ℝ) : ℝ :=
  let kept := ((tmot.zip tic).filter fun p => 0 ≤ p.1.headI).map Prod.snd
  kept.sum / kept.length

/-- C5's reading of §4.1: the smoothing pass (`klfix` on the motif cells,
`bkgfix` on the backgrounds) runs before every scoring call with KL, IS,
ALLR or ALLR_LL — here applied in front of the direct column comparison.
The counterexample shows the source's `compare_columns_cpp` does not do
this. -/
def compare_columns_smoothed (p1 p2 b1 b2 : Col) (n1 n2 : ℝ) (m : String) :
    Option ℝ :=
  match METRICS_enum m with
  | 2 | 4 | 9 | 11 =>
      compare_columns_cpp (p1.map fun x => x + 0.01) (p2.map fun x => x + 0.01)
        (bkgfix b1) (bkgfix b2) n1 n2 m
  | _ => compare_columns_cpp p1 p2 b1 b2 n1 n2 m

/-- C6's reading of the no-op condition: both motifs' widths already
satisfy the minimum-overlap target for both sides, i.e. neither side needs
any padding columns. -/
def bothSidesSatisfied (ov : ℝ) (ncol1 ncol2 : ℕ) : Prop :=
  ncol2 ≤ (overlapTargets ov ncol1 ncol2).1
    ∧ ncol1 ≤ (overlapTargets ov ncol1 ncol2).2

/-! ## Helper lemmas -/

/-- `score_median` succeeds on every nonempty score vector: the sort
preserves the length and both middle indices are then in bounds. -/
lemma score_median_isSome {l : List ℝ} (h : l ≠ []) :
    (score_median l).isSome = true := by
  rw [score_median]
  have hpos : 0 < l.length := List.length_pos.mpr h
  by_cases h1 : l.length = 1
  · rw [if_pos h1]
    simp [List.getElem?_eq_getElem hpos]
  · rw [if_neg h1]
    have hlen : 2 ≤ l.length := by omega
    have hs : (List.insertionSort (· ≤ ·) l).length = l.length :=
      List.length_insertionSort _ l
    by_cases h2 : l.length % 2 = 0
    · rw [if_pos h2]
      have ha : l.length / 2 - 1 < (List.insertionSort (· ≤ ·) l).length := by
        rw [hs]; omega
      have hb : l.length / 2 < (List.insertionSort (· ≤ ·) l).length := by
        rw [hs]; omega
      simp [List.getElem?_eq_getElem ha, List.getElem?_eq_getElem hb]
    · rw [if_neg h2]
      have hb : l.length / 2 < (List.insertionSort (· ≤ ·) l).length := by
        rw [hs]; omega
      simp [List.getElem?_eq_getElem hb]

/-- A successful `seqOpt` forces the input to be the pointwise `some` of
the output. -/
lemma seqOpt_shape {α : Type} : ∀ {l : List (Option α)} {out : List α},
    seqOpt l = some out → l = out.map some := by
  intro l
  induction l with
  | nil =>
      intro out h
      rw [seqOpt] at h
      cases out with
      | nil => rfl
      | cons b bs => simp at h
  | cons x xs ih =>
      intro out h
      cases x with
      | none => rw [seqOpt] at h; simp at h
      | some v =>
          rw [seqOpt] at h
          cases hx : seqOpt xs with
          | none => rw [hx] at h; simp at h
          | some tl =>
              rw [hx] at h
              simp only [Option.some.injEq] at h
              rw [← h, List.map_cons, ← ih hx]

/-! ## C8 — sentinel scores skip the p-value lookup -/

/-- The two-part property of C8: every per-score lookup with a sentinel
score yields p-value 0 immediately, regardless of the table contents; and
whenever the whole extraction terminates, the sentinel positions of its
output are 0. -/
def C8Prop (pcalc : ℝ → ℝ → ℝ → Bool → String → ℝ) (score : ℝ) : Prop :=
  (∀ (ncols subject target : List ℤ) (paramA paramB : List ℝ)
      (distribution : List String) (ltail : Bool) (i1 i2 fuel : ℕ),
    pvalForScore pcalc ncols subject target paramA paramB distribution ltail
      i1 i2 score fuel = some 0)
  ∧ ∀ (ncols : List ℤ) (scores : List ℝ) (indices1 indices2 : List ℕ)
      (method : String) (subject target : List ℤ) (paramA paramB : List ℝ)
      (distribution : List String) (fuel i : ℕ) (out : List ℝ),
    i < scores.length → scores.getD i 0 = score →
    pval_extractor pcalc ncols scores indices1 indices2 method subject target
      paramA paramB distribution fuel = some out →
    out[i]? = some 0

/-- C8: a score whose absolute value equals the sentinel extreme
(`dblMax`, the value used for unscored low-information alignments) is
skipped before any table access — the clamping, the row search and the CDF
call never run — and its p-value stays at the initial 0, for every table
and every CDF implementation. -/
theorem c8_sentinel_skip (pcalc : ℝ → ℝ → ℝ → Bool → String → ℝ)
    (score : ℝ) (hscore : |score| = dblMax) : C8Prop pcalc score := by
  have hbody : ∀ (ncols subject target : List ℤ) (paramA paramB : List ℝ)
      (distribution : List String) (ltail : Bool) (i1 i2 fuel : ℕ),
      pvalForScore pcalc ncols subject target paramA paramB distribution ltail
        i1 i2 score fuel = some 0 := by
    intro ncols subject target paramA paramB distribution ltail i1 i2 fuel
    rw [pvalForScore, if_pos hscore]
  refine ⟨hbody, ?_⟩
  intro ncols scores indices1 indices2 method subject target paramA paramB
    distribution fuel i out hi hsc hout
  rw [pval_extractor] at hout
  have hshape := seqOpt_shape
    (l := (List.range scores.length).map fun k =>
      pvalForScore pcalc ncols subject target paramA paramB distribution
        (pvalLtail method) (indices1.getD k 0) (indices2.getD k 0)
        (scores.getD k 0) fuel) hout
  have hF : ((List.range scores.length).map fun k =>
      pvalForScore pcalc ncols subject target paramA paramB distribution
        (pvalLtail method) (indices1.getD k 0) (indices2.getD k 0)
        (scores.getD k 0) fuel)[i]? = some (pvalForScore pcalc ncols subject
          target paramA paramB distribution (pvalLtail method)
          (indices1.getD i 0) (indices2.getD i 0) (scores.getD i 0) fuel) := by
    simp [List.getElem?_map, List.getElem?_range, hi]
  rw [hshape] at hF
  rw [hsc, hbody] at hF
  rw [List.getElem?_map] at hF
  cases ho : out[i]? with
  | none => rw [ho] at hF; simp at hF
  | some v =>
      rw [ho] at hF
      simp at hF
      rw [hF]

/-- Witness for C8 at the concrete sentinel score `dblMax` itself. -/
theorem c8_witness :
    |dblMax| = dblMax ∧ C8Prop (fun _ _ _ _ _ => 0) dblMax :=
  have h : |dblMax| = dblMax := abs_of_nonneg (by rw [dblMax]; positivity)
  ⟨h, c8_sentinel_skip _ _ h⟩

/-! ## C1 — the row search of the p-value pass does not terminate -/

/-- Once both widths have climbed past every `subject` entry of the
two-row table `(2,2), (3,5)`, no iteration can ever set `ok`, so the
`while (!ok)` loop runs for every amount of fuel. -/
lemma findRowMatch_c1_none {n1 n2 : ℤ} (h : 4 ≤ n1) :
    findRowMatch [2, 3] [2, 5] n1 n2 = none := by
  have h1 : ¬((2 : ℤ) = n1 ∧ (2 : ℤ) = n2) := by omega
  have h2 : ¬((3 : ℤ) = n1 ∧ (5 : ℤ) = n2) := by omega
  rw [findRowMatch]
  simp [List.findIdx?_cons, List.findIdx?_nil, h1, h2]

/-- The loop body only increments the widths once the table is exhausted:
by induction the loop never exits. -/
lemma searchLoop_c1_stuck : ∀ (fuel : ℕ) (n1 n2 row : ℤ), 4 ≤ n1 →
    searchLoop [2, 3] [2, 5] fuel n1 n2 row false = none := by
  intro fuel
  induction fuel with
  | zero => intro n1 n2 row h; rfl
  | succ k ih =>
      intro n1 n2 row h
      rw [searchLoop]
      have hm := @findRowMatch_c1_none n1 n2 h
      simp only [searchBody, hm, Option.isSome_none, Bool.false_eq_true,
        if_false]
      exact ih (n1 + 1) (n2 + 1) _ (by omega)

/-- From the clamped start `(2, 3)` the diagonal search misses both rows
of the table, the widths pass the maximum after two iterations, `row` is
set to `-1` — and the loop keeps running since only `ok` can end it. -/
lemma searchLoop_c1_start (fuel : ℕ) :
    searchLoop [2, 3] [2, 5] fuel 2 3 0 false = none := by
  match fuel with
  | 0 => rfl
  | 1 => rfl
  | (k + 2) => exact searchLoop_c1_stuck k 4 5 (-1) (by norm_num)

/-- C1: concrete divergence of the p-value row search.  Table rows
`(2,2)` and `(3,5)`; motif widths 2 and 3 give the in-range start
`(n1, n2) = (2, 3)`; no row `(2+k, 3+k)` exists, and after both widths
exceed the table maxima the code sets `row = -1` without leaving
`while (!ok)` — the extraction never returns, for any fuel and any CDF
implementation, instead of skipping the score with p-value 0 as the claim
(and the code's own comment block) states. -/
theorem c1_row_search_diverges (pcalc : ℝ → ℝ → ℝ → Bool → String → ℝ)
    (fuel : ℕ) :
    pval_extractor pcalc [2, 3] [1] [0] [1] "EUCL" [2, 3] [2, 5] [0, 0]
      [1, 1] ["normal", "normal"] fuel = none := by
  have hone : ¬(|(1 : ℝ)| = dblMax) := by
    rw [abs_one, dblMax]
    intro h
    norm_num at h
  have hps : pvalForScore pcalc [2, 3] [2, 3] [2, 5] [0, 0] [1, 1]
      ["normal", "normal"] (pvalLtail "EUCL") 0 1 1 fuel = none := by
    rw [pvalForScore, if_neg hone]
    norm_num [List.getD]
    rw [searchLoop_c1_start fuel]
  rw [pval_extractor]
  simp only [List.length_cons, List.length_nil, List.range_succ,
    List.range_zero, List.nil_append, List.map_cons, List.map_nil, List.getD,
    List.get?_cons_zero, Option.getD_some]
  rw [hps]
  rfl

/-! ## C3 — geometric-mean aggregation -/

/-- C3, counterexample: on the single comparable value `1` the engine's
geometric mean is 0 (the accumulated log-sum is `log 1 = 0`, which trips
the zero test), while the claim's formula gives
`exp (log 1 / 1) = 1 ≠ 0`; in particular a strictly positive comparable
value exists yet 0 is returned. -/
theorem c3_cex :
    calc_final_score [1] "g.mean" 1 [true] = some 0
  ∧ gmeanSpecClaim [1] = 1 ∧ (0 : ℝ) ≠ 1 := by
  refine ⟨?_, ?_, by norm_num⟩
  · have h1 : calc_final_score [1] "g.mean" 1 [true]
        = some (score_gmean [1]) := rfl
    rw [h1, score_gmean]
    norm_num [List.filter_cons, Real.log_one]
  · rw [gmeanSpecClaim]
    norm_num [List.filter_cons, Real.log_one, Real.exp_zero]

/-- C3, amended: the geometric-mean strategy sums the natural logs of the
strictly-positive values of the (already comparable-filtered) array,
divides by the length of that whole array — not by the count of positive
values — and returns 0 exactly when that log-sum is 0, which covers the
all-non-positive case but also cancelling or all-one positives. -/
theorem c3_amended (scores : List ℝ) :
    score_gmean scores =
      (if ((scores.filter fun x => 0 < x).map Real.log).sum = 0 then 0
        else Real.exp (((scores.filter fun x => 0 < x).map Real.log).sum
          / scores.length))
  ∧ ((∀ x ∈ scores, x ≤ 0) → score_gmean scores = 0) := by
  constructor
  · rfl
  · intro h
    have hf : (scores.filter fun x => 0 < x) = [] := by
      rw [List.filter_eq_nil_iff]
      intro a ha
      simpa using not_lt.mpr (h a ha)
    rw [score_gmean]
    simp [hf]

/-- Witness for C3's amended theorem at the concrete input `[-1]`. -/
theorem c3_amended_witness : score_gmean [(-1 : ℝ)] = 0 :=
  (c3_amended [(-1 : ℝ)]).2 (by norm_num)

/-! ## C5 — the smoothing pass -/

/-- Evaluation of the Itakura-Saito metric on a single comparable column
pair under the `"sum"` strategy. -/
lemma compare_is_single (c1 c2 : Col) (h1 : 0 ≤ c1.headI) (h2 : 0 ≤ c2.headI) :
    compare_is [c1] [c2] "sum"
      = some ((List.zipWith (fun a b => a / b - Real.log (a / b) - 1) c1 c2).sum) := by
  rw [compare_is]
  simp only [goodCols, List.zipWith_cons_cons, List.zipWith_nil_right,
    if_pos (And.intro h1 h2), List.zip_cons_cons, List.zip_nil_right]
  have h3 : calc_final_score
      [(List.zipWith (fun a b => a / b - Real.log (a / b) - 1) c1 c2).sum]
      "sum" ([true].count true) [true]
      = some (score_sum
        [(List.zipWith (fun a b => a / b - Real.log (a / b) - 1) c1 c2).sum]) := rfl
  simp only [List.zipWith_cons_cons, List.zipWith_nil_right, if_true] at h3 ⊢
  rw [h3, score_sum]
  simp

/-- C5, counterexample: the direct column comparison scores the raw
columns, not the smoothed ones.  At columns `[2,1]` and `[1,1]` under IS
the raw score is `1 − log 2` while the smoothed score is
`100/101 − log (201/101)`; they differ because
`log (202/201) < 1/201 < 1/101`. -/
theorem c5_cex :
    compare_columns_cpp [2, 1] [1, 1] [1/2, 1/2] [1/2, 1/2] 100 100 "IS"
      ≠ compare_columns_smoothed [2, 1] [1, 1] [1/2, 1/2] [1/2, 1/2] 100 100 "IS" := by
  have hL : compare_columns_cpp [2, 1] [1, 1] [1/2, 1/2] [1/2, 1/2] 100 100 "IS"
      = compare_is [[2, 1]] [[1, 1]] "sum" := rfl
  have hR : compare_columns_smoothed [2, 1] [1, 1] [1/2, 1/2] [1/2, 1/2] 100 100 "IS"
      = compare_is [[(2 : ℝ) + 0.01, (1 : ℝ) + 0.01]]
          [[(1 : ℝ) + 0.01, (1 : ℝ) + 0.01]] "sum" := rfl
  rw [hL, hR, compare_is_single _ _ (by norm_num [List.headI]) (by norm_num [List.headI]),
    compare_is_single _ _ (by norm_num [List.headI]) (by norm_num [List.headI])]
  simp only [List.zipWith_cons_cons, List.zipWith_nil_right, List.sum_cons,
    List.sum_nil, Ne, Option.some.injEq]
  intro h
  have e1 : (2 : ℝ) / 1 = 2 := by norm_num
  have e2 : (1 : ℝ) / 1 = 1 := by norm_num
  have e3 : ((2 : ℝ) + 0.01) / ((1 : ℝ) + 0.01) = 201 / 101 := by norm_num
  have e4 : ((1 : ℝ) + 0.01) / ((1 : ℝ) + 0.01) = 1 := by norm_num
  rw [e1, e2, e3, e4, Real.log_one] at h
  have hlt : Real.log ((202 : ℝ) / 201) < 1 / 201 := by
    have h1 : Real.log ((202 : ℝ) / 201) < (202 : ℝ) / 201 - 1 :=
      Real.log_lt_sub_one_of_pos (by norm_num) (by norm_num)
    linarith
  have hsplit : Real.log ((202 : ℝ) / 201)
      = Real.log 2 - Real.log ((201 : ℝ) / 101) := by
    rw [Real.log_div (by norm_num) (by norm_num),
      Real.log_div (by norm_num) (by norm_num),
      show (202 : ℝ) = 2 * 101 by norm_num,
      Real.log_mul (by norm_num) (by norm_num)]
    ring
  have : Real.log 2 - Real.log ((201 : ℝ) / 101) = 1 / 101 := by linarith
  rw [hsplit] at hlt
  linarith

/-- The conclusion of C5's amended claim: for the four zero-intolerant
metrics the preprocessing applied by the batch entry points equals adding
`0.01` to every motif cell and, exactly when some background entry is 0,
adding `0.01 * (1 / size)` to every background entry. -/
def C5Prop (mot : Mot) (bkg : Bkg) (m : String) : Prop :=
  fix_mot_bkg_zeros mot bkg m
    = (mot.map fun c => c.map fun x => x + 0.01,
       if ∃ x ∈ bkg, x = 0 then
         bkg.map fun x => x + 0.01 * (1 / (bkg.length : ℝ))
       else bkg)

/-- C5, amended: the smoothing pass with exactly the claimed constants is
applied by `fix_mot_bkg_zeros` — invoked by the batch entry points
(`compare_motifs_cpp` and its siblings) on every motif/background pair —
for the metrics KL, IS, ALLR and ALLR floor; the direct column comparison
`compare_columns_cpp` applies no smoothing (see the counterexample). -/
theorem c5_amended (mot : Mot) (bkg : Bkg) (m : String)
    (h : m ∈ ["KL", "IS", "ALLR", "ALLR_LL"]) : C5Prop mot bkg m := by
  simp only [List.mem_cons, List.not_mem_nil, or_false] at h
  rcases h with rfl | rfl | rfl | rfl <;> rfl

/-- Witness for C5's amended theorem with `"KL"`, a motif holding a zero
cell and a background holding a zero entry. -/
theorem c5_amended_witness :
    ("KL" ∈ ["KL", "IS", "ALLR", "ALLR_LL"]) ∧ C5Prop [[0]] [0, 1] "KL" :=
  ⟨by simp, c5_amended [[0]] [0, 1] "KL" (by simp)⟩

/-! ## C6 — column equalization -/

/-- C6, counterexample.  Part one: widths 2 and 5 with absolute minimum
overlap 3 — the side-1 target (3) is below the other motif's width (5), so
the claim's "both sides satisfied" condition fails, yet the code is a
no-op because the *other* side needs no padding.  Part two: two motifs of
equal width 2 with minimum overlap 1 — neither motif is narrower, yet the
second motif is padded to width 4. -/
theorem c6_cex :
    (equalize_mot_cols [[1, 0], [1, 0]] [[1, 0], [1, 0], [1, 0], [1, 0], [1, 0]]
        [0, 0] [0, 0, 0, 0, 0] 3
      = ([[1, 0], [1, 0]], [[1, 0], [1, 0], [1, 0], [1, 0], [1, 0]],
          [0, 0], [0, 0, 0, 0, 0])
    ∧ ¬ bothSidesSatisfied 3 2 5)
  ∧ ((equalize_mot_cols [[1, 0], [1, 0]] [[1, 0], [1, 0]] [0, 0] [0, 0] 1).2.1
      = [[-1, -1], [1, 0], [1, 0], [-1, -1]]
    ∧ (equalize_mot_cols [[1, 0], [1, 0]] [[1, 0], [1, 0]] [0, 0] [0, 0] 1).2.1
      ≠ [[1, 0], [1, 0]]) := by
  have ht3 : overlapTargets 3 2 5 = (3, 3) := by
    rw [overlapTargets, if_neg (by norm_num)]
    norm_num
  have ht1 : overlapTargets 1 2 2 = (1, 1) := by
    rw [overlapTargets, if_neg (by norm_num)]
    norm_num
  have hv : (equalize_mot_cols [[1, 0], [1, 0]] [[1, 0], [1, 0]] [0, 0] [0, 0] 1).2.1
      = [[-1, -1], [1, 0], [1, 0], [-1, -1]] := by
    rw [equalize_mot_cols]
    simp [ht1, padCol, List.replicate]
  refine ⟨⟨?_, ?_⟩, hv, ?_⟩
  · rw [equalize_mot_cols]
    simp [ht3]
  · rw [bothSidesSatisfied, ht3]
    norm_num
  · rw [hv]
    intro hcontra
    have hlen := congrArg List.length hcontra
    simp at hlen

/-- The conclusion of C6's amended claim, with `t1`/`t2` the per-side
padding needs. -/
def C6Prop (m1 m2 : Mot) (i1 i2 : List ℝ) (ov : ℝ) (t1 t2 : ℕ) : Prop :=
  (equalize_mot_cols m1 m2 i1 i2 ov = (m1, m2, i1, i2) ↔ t1 = 0 ∨ t2 = 0)
  ∧ (t1 ≠ 0 → t2 ≠ 0 → m1.length < m2.length →
      equalize_mot_cols m1 m2 i1 i2 ov
        = (List.replicate t1 (padCol m1.headI.length) ++ m1
            ++ List.replicate t1 (padCol m1.headI.length), m2,
           List.replicate t1 0 ++ i1 ++ List.replicate t1 0, i2))
  ∧ (t1 ≠ 0 → t2 ≠ 0 → ¬ m1.length < m2.length →
      equalize_mot_cols m1 m2 i1 i2 ov
        = (m1, List.replicate t2 (padCol m1.headI.length) ++ m2
            ++ List.replicate t2 (padCol m1.headI.length),
           i1, List.replicate t2 0 ++ i2 ++ List.replicate t2 0))

/-- C6, amended: equalization is a no-op exactly when at least one side's
padding need is zero (i.e. that side's overlap target already covers the
other motif's width) — not when both are; when both sides need padding the
motif selected by the `ncol2 > ncol1` test is padded on both ends (so with
equal widths the second motif is padded even though it is not narrower),
with fractional overlaps still evaluated against each motif's own width
inside `overlapTargets`. -/
theorem c6_amended (m1 m2 : Mot) (i1 i2 : List ℝ) (ov : ℝ) (t1 t2 : ℕ)
    (ht1 : t1 = m2.length - (overlapTargets ov m1.length m2.length).1)
    (ht2 : t2 = m1.length - (overlapTargets ov m1.length m2.length).2) :
    C6Prop m1 m2 i1 i2 ov t1 t2 := by
  subst ht1 ht2
  refine ⟨⟨?_, ?_⟩, ?_, ?_⟩
  · intro h
    by_contra hc
    push_neg at hc
    rw [equalize_mot_cols, if_neg (by tauto)] at h
    by_cases hlt : m1.length < m2.length
    · rw [if_pos hlt] at h
      have := congrArg (fun q => q.1.length) h
      simp at this
      omega
    · rw [if_neg hlt] at h
      have := congrArg (fun q => q.2.1.length) h
      simp at this
      omega
  · intro h
    rw [equalize_mot_cols, if_pos (by tauto)]
  · intro h1 h2 hlt
    rw [equalize_mot_cols, if_neg (by tauto), if_pos hlt]
  · intro h1 h2 hlt
    rw [equalize_mot_cols, if_neg (by tauto), if_neg hlt]

/-- Witness for C6's amended theorem at the equal-width instance of the
counterexample. -/
theorem c6_amended_witness :
    ((1 : ℕ) = ([[(1 : ℝ), 0], [(1 : ℝ), 0]] : Mot).length
      - (overlapTargets 1 ([[(1 : ℝ), 0], [(1 : ℝ), 0]] : Mot).length
          ([[(1 : ℝ), 0], [(1 : ℝ), 0]] : Mot).length).1)
  ∧ C6Prop [[(1 : ℝ), 0], [(1 : ℝ), 0]] [[(1 : ℝ), 0], [(1 : ℝ), 0]]
      [0, 0] [0, 0] 1 1 1 := by
  have ht : overlapTargets 1 ([[(1 : ℝ), 0], [(1 : ℝ), 0]] : Mot).length
      ([[(1 : ℝ), 0], [(1 : ℝ), 0]] : Mot).length = (1, 1) := by
    rw [overlapTargets, if_neg (by norm_num)]
    norm_num
  have h1 : (1 : ℕ) = ([[(1 : ℝ), 0], [(1 : ℝ), 0]] : Mot).length
      - (overlapTargets 1 ([[(1 : ℝ), 0], [(1 : ℝ), 0]] : Mot).length
          ([[(1 : ℝ), 0], [(1 : ℝ), 0]] : Mot).length).1 := by
    rw [ht]
    rfl
  have h2 : (1 : ℕ) = ([[(1 : ℝ), 0], [(1 : ℝ), 0]] : Mot).length
      - (overlapTargets 1 ([[(1 : ℝ), 0], [(1 : ℝ), 0]] : Mot).length
          ([[(1 : ℝ), 0], [(1 : ℝ), 0]] : Mot).length).2 := by
    rw [ht]
    rfl
  exact ⟨h1, c6_amended _ _ _ _ _ _ _ h1 h2⟩

/-! ## C2 — compare_motifs_cpp passes the first motif's background twice -/

/-- The motif half of the smoothing pass never depends on the background. -/
lemma fix_mot_fst (m : Mot) (b b2 : Bkg) (meth : String) :
    (fix_mot_bkg_zeros m b meth).1 = (fix_mot_bkg_zeros m b2 meth).1 := by
  rw [fix_mot_bkg_zeros, fix_mot_bkg_zeros]
  split <;> rfl

/-- Absolute IC (`type = 1`, `relative = false`) ignores the background. -/
lemma internal_posIC_abs (pos : Col) (b b2 : Bkg) :
    internal_posIC pos b 1 false = internal_posIC pos b2 1 false := rfl

/-- The per-motif IC arrays of `compare_motifs_cpp` do not depend on the
backgrounds when `type = 1` and `relative = false`. -/
lemma ic_map_indep (v : List Mot) (bA bB : List Bkg)
    (hlen : bA.length = bB.length) :
    (v.zip bB).map (fun p => p.1.map fun col => internal_posIC col p.2 1 false)
    = (v.zip bA).map
      (fun p => p.1.map fun col => internal_posIC col p.2 1 false) := by
  induction v generalizing bA bB with
  | nil => simp
  | cons m v ih =>
      cases bA with
      | nil =>
          cases bB with
          | nil => simp
          | cons b bs => simp at hlen
      | cons a as =>
          cases bB with
          | nil => simp at hlen
          | cons b bs =>
              simp only [List.zip_cons_cons, List.map_cons]
              rw [ih as bs (by simpa using hlen)]
              rfl

/-- C2: in `compare_motifs_cpp` the answer vector is invariant under
replacing the background at any position `j` that never occurs in
`index1` — in particular at `j = index2[i]` when that index is not also a
first index.  (Here `type = 1`, `relative = false`, so the IC pass does
not read backgrounds; the scoring uses `bkg[index1[i]]` for BOTH
background arguments, which the spec says should be the two motifs' own
paired backgrounds.)  The sibling entry point `compare_motifs_all_cpp`
passes `bkg[i], bkg[j]` as intended, making this a slip. -/
theorem c2_second_background_ignored (mots : List Mot)
    (index1 index2 : List ℕ) (method : String) (mo : ℝ) (RC : Bool)
    (bkg : List Bkg) (minic : ℝ) (norm : Bool) (posic : ℝ) (nsites : List ℝ)
    (strat : String) (j : ℕ) (b2 : Bkg) (hj : j ∉ index1) :
    compare_motifs_cpp mots index1 index2 method mo RC bkg 1 false minic norm
      posic nsites strat
    = compare_motifs_cpp mots index1 index2 method mo RC (bkg.set j b2) 1
      false minic norm posic nsites strat := by
  by_cases hjl : bkg.length ≤ j
  · rw [List.set_eq_of_length_le hjl]
  push_neg at hjl
  have hzip : ∀ i : ℕ, i ≠ j →
      (mots.zip (bkg.set j b2))[i]? = (mots.zip bkg)[i]? := by
    intro i hij
    simp only [List.zip, List.getElem?_zipWith']
    rw [List.getElem?_set_ne fun hh => hij hh.symm]
  -- the processed motifs agree
  have E1 : processedMots mots (bkg.set j b2) method
      = processedMots mots bkg method := by
    rw [processedMots, processedMots, processedPairs, processedPairs]
    apply List.ext_getElem?
    intro i
    simp only [List.getElem?_map]
    by_cases hij : i = j
    · subst hij
      simp only [List.zip, List.getElem?_zipWith']
      rw [List.getElem?_set_eq_of_lt _ hjl, List.getElem?_eq_getElem hjl]
      cases hm : mots[i]? with
      | none => rfl
      | some m => simp [fix_mot_fst m b2 (bkg[i]) method]
    · rw [hzip i hij]
  -- the IC arrays agree (they do not read the backgrounds here)
  have hlen2 : (processedBkgs mots bkg method).length
      = (processedBkgs mots (bkg.set j b2) method).length := by
    rw [processedBkgs, processedBkgs, processedPairs, processedPairs]
    simp only [List.length_map, List.length_zip, List.length_set]
  have E2 : icScores mots (bkg.set j b2) method 1 false
      = icScores mots bkg method 1 false := by
    rw [icScores, icScores, E1, ic_map_indep _ _ _ hlen2]
  -- the processed backgrounds agree away from j
  have E3 : ∀ k : ℕ, k ≠ j →
      (processedBkgs mots (bkg.set j b2) method).getD k []
      = (processedBkgs mots bkg method).getD k [] := by
    intro k hk
    rw [processedBkgs, processedBkgs, processedPairs, processedPairs]
    rw [List.getD_eq_getElem?_getD, List.getD_eq_getElem?_getD]
    simp only [List.getElem?_map]
    rw [hzip k hk]
  have hbody : compare_motifs_cpp_body mots index1 index2 method
      (if mo < 0 then 1 else mo) RC (bkg.set j b2) 1 false minic norm posic
      nsites strat
      = compare_motifs_cpp_body mots index1 index2 method
        (if mo < 0 then 1 else mo) RC bkg 1 false minic norm posic nsites
        strat := by
    rw [compare_motifs_cpp_body, compare_motifs_cpp_body]
    rw [E1, E2]
    apply congrArg seqOpt
    apply List.map_congr_left
    intro i hi
    rw [List.mem_range] at hi
    have hne : index1.getD i 0 ≠ j := by
      intro he
      apply hj
      rw [← he, List.getD_eq_getElem index1 0 hi]
      exact List.getElem_mem hi
    rw [E3 _ hne]
  rw [compare_motifs_cpp, compare_motifs_cpp]
  simp only [List.length_set]
  rw [hbody]

/-- Witness for C2: two motifs, the pair `(0, 1)` compared with `ALLR`;
replacing the second motif's background (position `1`, absent from
`index1`) does not change the answers. -/
theorem c2_witness :
    ((1 : ℕ) ∉ ([0] : List ℕ))
  ∧ compare_motifs_cpp [[[1/2, 1/2]], [[1/4, 3/4]]] [0] [1] "ALLR" 1 false
      [[1/2, 1/2], [1/4, 3/4]] 1 false 0 false 0 [10, 10] "sum"
    = compare_motifs_cpp [[[1/2, 1/2]], [[1/4, 3/4]]] [0] [1] "ALLR" 1 false
      (([[1/2, 1/2], [1/4, 3/4]] : List Bkg).set 1 [1/3, 2/3]) 1 false 0
      false 0 [10, 10] "sum" :=
  ⟨by simp, c2_second_background_ignored _ _ _ _ _ _ _ _ _ _ _ _ 1 [1/3, 2/3]
    (by simp)⟩

/-! ## C7 — best-score selection and the reverse-complement slot -/

/-- `std::min_element` as a fold: the result is an element of the seeded
list and a lower bound for it. -/
lemma ansMinVal_spec : ∀ (xs : List ℝ) (c : ℝ),
    (ansMinVal xs c = c ∨ ansMinVal xs c ∈ xs)
    ∧ ansMinVal xs c ≤ c ∧ ∀ y ∈ xs, ansMinVal xs c ≤ y := by
  intro xs
  induction xs with
  | nil => intro c; exact ⟨Or.inl rfl, le_refl c, by simp⟩
  | cons x xs ih =>
      intro c
      rw [ansMinVal]
      by_cases h : x < c
      · rw [if_pos h]
        rcases ih x with ⟨hmem, hle, hall⟩
        refine ⟨?_, le_trans hle (le_of_lt h), ?_⟩
        · rcases hmem with he | hm
          · right; rw [he]; exact List.mem_cons_self x xs
          · exact Or.inr (List.mem_cons_of_mem x hm)
        · intro y hy
          rcases List.mem_cons.mp hy with rfl | hy2
          · exact hle
          · exact hall y hy2
      · rw [if_neg h]
        rcases ih c with ⟨hmem, hle, hall⟩
        refine ⟨?_, hle, ?_⟩
        · rcases hmem with he | hm
          · exact Or.inl he
          · exact Or.inr (List.mem_cons_of_mem x hm)
        · intro y hy
          rcases List.mem_cons.mp hy with rfl | hy2
          · exact le_trans hle (not_lt.mp h)
          · exact hall y hy2

/-- `std::max_element` as a fold. -/
lemma ansMaxVal_spec : ∀ (xs : List ℝ) (c : ℝ),
    (ansMaxVal xs c = c ∨ ansMaxVal xs c ∈ xs)
    ∧ c ≤ ansMaxVal xs c ∧ ∀ y ∈ xs, y ≤ ansMaxVal xs c := by
  intro xs
  induction xs with
  | nil => intro c; exact ⟨Or.inl rfl, le_refl c, by simp⟩
  | cons x xs ih =>
      intro c
      rw [ansMaxVal]
      by_cases h : c < x
      · rw [if_pos h]
        rcases ih x with ⟨hmem, hle, hall⟩
        refine ⟨?_, le_trans (le_of_lt h) hle, ?_⟩
        · rcases hmem with he | hm
          · right; rw [he]; exact List.mem_cons_self x xs
          · exact Or.inr (List.mem_cons_of_mem x hm)
        · intro y hy
          rcases List.mem_cons.mp hy with rfl | hy2
          · exact hle
          · exact hall y hy2
      · rw [if_neg h]
        rcases ih c with ⟨hmem, hle, hall⟩
        refine ⟨?_, hle, ?_⟩
        · rcases hmem with he | hm
          · exact Or.inl he
          · exact Or.inr (List.mem_cons_of_mem x hm)
        · intro y hy
          rcases List.mem_cons.mp hy with rfl | hy2
          · exact le_trans (not_lt.mp h) hle
          · exact hall y hy2

/-- Head-seeded form of the minimum fold. -/
lemma ansMinVal_head_spec (x : ℝ) (xs : List ℝ) :
    ansMinVal xs x ∈ x :: xs ∧ ∀ y ∈ x :: xs, ansMinVal xs x ≤ y := by
  rcases ansMinVal_spec xs x with ⟨hmem, hle, hall⟩
  constructor
  · rcases hmem with he | hm
    · rw [he]; exact List.mem_cons_self x xs
    · exact List.mem_cons_of_mem x hm
  · intro y hy
    rcases List.mem_cons.mp hy with rfl | hy2
    · exact hle
    · exact hall y hy2

/-- Head-seeded form of the maximum fold. -/
lemma ansMaxVal_head_spec (x : ℝ) (xs : List ℝ) :
    ansMaxVal xs x ∈ x :: xs ∧ ∀ y ∈ x :: xs, y ≤ ansMaxVal xs x := by
  rcases ansMaxVal_spec xs x with ⟨hmem, hle, hall⟩
  constructor
  · rcases hmem with he | hm
    · rw [he]; exact List.mem_cons_self x xs
    · exact List.mem_cons_of_mem x hm
  · intro y hy
    rcases List.mem_cons.mp hy with rfl | hy2
    · exact hle
    · exact hall y hy2

/-- The conclusion of C7: (i) for the six distance metrics the selected
score is a member of and a lower bound for the score array; (ii) for the
five similarity metrics it is a member and an upper bound; (iii) with
reverse complement the result is the core run extended by exactly the slot
holding the `RC = false` evaluation against the reverse complement of the
second motif (IC array reversed); (iv) the core score array has exactly
`fori * forj` slots, so the RC slot is the single extra trailing one. -/
def C7Prop (ans : List ℝ) (method : String) (mot1 mot2 : Mot) (mo : ℝ)
    (ic1 ic2 : List ℝ) (minic : ℝ) (norm : Bool) (posic : ℝ) (bkg1 bkg2 : Bkg)
    (ns1 ns2 : ℝ) (strat : String) : Prop :=
  (method ∈ ["EUCL", "KL", "HELL", "IS", "SEUCL", "MAN"] →
    return_best_ans ans method ∈ ans ∧ ∀ y ∈ ans, return_best_ans ans method ≤ y)
  ∧ (method ∈ ["PCC", "SW", "ALLR", "BHAT", "ALLR_LL"] →
    return_best_ans ans method ∈ ans ∧ ∀ y ∈ ans, y ≤ return_best_ans ans method)
  ∧ compare_motif_pair mot1 mot2 method mo true ic1 ic2 minic norm posic bkg1
      bkg2 ns1 ns2 strat
    = compare_motif_pair_core mot1 mot2 method mo ic1 ic2 minic norm posic
        bkg1 bkg2 ns1 ns2 strat
        (some (compare_motif_pair mot1 (get_motif_rc mot2) method mo false ic1
          ic2.reverse minic norm posic bkg1 bkg2 ns1 ns2 strat))
  ∧ ∀ (a b : Mot) (x y : List ℝ) (minw fori forj tlen : ℕ),
      (alignment_slots a b x y minw fori forj tlen method posic norm minic
        bkg1 bkg2 ns1 ns2 strat).length = fori * forj

/-- C7: the final reported score is the minimum of the per-alignment array
for EUCL, KL, HELL, IS, SEUCL and MAN and the maximum for PCC, SW, ALLR,
BHAT and ALLR_LL; with reverse-complement search the array carries exactly
one extra trailing slot, holding the best score of one independent
(`RC = false`, hence non-nested) evaluation against the reverse complement
of the second motif. -/
theorem c7_selection_and_rc (ans : List ℝ) (method : String) (mot1 mot2 : Mot)
    (mo : ℝ) (ic1 ic2 : List ℝ) (minic : ℝ) (norm : Bool) (posic : ℝ)
    (bkg1 bkg2 : Bkg) (ns1 ns2 : ℝ) (strat : String) (hans : ans ≠ []) :
    C7Prop ans method mot1 mot2 mo ic1 ic2 minic norm posic bkg1 bkg2 ns1 ns2
      strat := by
  obtain ⟨x, xs, rfl⟩ : ∃ x xs, ans = x :: xs := by
    cases ans with
    | nil => exact absurd rfl hans
    | cons x xs => exact ⟨x, xs, rfl⟩
  refine ⟨?_, ?_, rfl, ?_⟩
  · intro hm
    fin_cases hm <;> exact ansMinVal_head_spec x xs
  · intro hm
    fin_cases hm <;> exact ansMaxVal_head_spec x xs
  · intro a b y z minw fori forj tlen
    rw [alignment_slots, List.length_map, List.length_range]

/-- Witness for C7 at a concrete nonempty score array and the EUCL
metric. -/
theorem c7_witness :
    ([(1 : ℝ), 2] ≠ [])
  ∧ C7Prop [(1 : ℝ), 2] "EUCL" [[1]] [[1]] 1 [1] [1] 0 false 0 [1] [1] 1 1
      "sum" :=
  ⟨by simp, c7_selection_and_rc [(1 : ℝ), 2] "EUCL" [[1]] [[1]] 1 [1] [1] 0
    false 0 [1] [1] 1 1 "sum" (by simp)⟩

/-! ## C4 — window mean IC counts equalization padding -/

/-- C4, counterexample: equalizing a 2-column motif against a 3-column
motif at minimum overlap 1 pads the first motif with IC `0.0` entries
(not `-1`); the width-3 window at offset 0 holds two padding columns and
one real column of IC 3.  `calc_mic` averages over every entry `≥ 0`, so
the padding counts in the denominator: the window mean is 1, while the
claim's non-padding-only mean is 3. -/
theorem c4_cex :
    calc_mic (((equalize_mot_cols [[1, 0], [1, 0]] [[1, 0], [1, 0], [1, 0]]
        [3, 5] [1, 1, 1] 1).2.2.1.drop 0).take 3) = 1
  ∧ specWindowMeanIC
      (((equalize_mot_cols [[1, 0], [1, 0]] [[1, 0], [1, 0], [1, 0]]
        [3, 5] [1, 1, 1] 1).1.drop 0).take 3)
      (((equalize_mot_cols [[1, 0], [1, 0]] [[1, 0], [1, 0], [1, 0]]
        [3, 5] [1, 1, 1] 1).2.2.1.drop 0).take 3) = 3
  ∧ (1 : ℝ) ≠ 3 := by
  have ht : overlapTargets 1 2 3 = (1, 1) := by
    rw [overlapTargets, if_neg (by norm_num)]
    norm_num
  have hv : equalize_mot_cols [[1, 0], [1, 0]] [[1, 0], [1, 0], [1, 0]]
      [3, 5] [1, 1, 1] 1
      = ([[-1, -1], [-1, -1], [1, 0], [1, 0], [-1, -1], [-1, -1]],
         [[1, 0], [1, 0], [1, 0]], [0, 0, 3, 5, 0, 0], [1, 1, 1]) := by
    rw [equalize_mot_cols]
    simp [ht, padCol, List.replicate]
  refine ⟨?_, ?_, by norm_num⟩
  · rw [hv]
    rw [calc_mic]
    norm_num [List.filter_cons]
  · rw [hv]
    rw [specWindowMeanIC]
    norm_num [List.filter_cons, List.headI]

/-- The conclusion of C4's amended claim. -/
def C4Prop (tic : List ℝ) (m1 m2 : Mot) (i1 i2 : List ℝ) (ov : ℝ) : Prop :=
  calc_mic tic = tic.sum / tic.length
  ∧ (∀ x ∈ (equalize_mot_cols m1 m2 i1 i2 ov).2.2.1, 0 ≤ x)
  ∧ (∀ x ∈ (equalize_mot_cols m1 m2 i1 i2 ov).2.2.2, 0 ≤ x)

/-- C4, amended: the window mean IC is the mean over the columns whose IC
is nonnegative.  Equalization padding carries IC `0.0`, which is
nonnegative: it adds nothing to the sum but does count in the denominator.
Hence when the original IC entries are all nonnegative (so are then all
entries after equalization, as proved here), every window's mean is
`sum / (full window length including padding)`; only positions
invalidated by the minimum-position-IC pass (IC set to `-1`) are excluded
from sum and count. -/
theorem c4_amended (tic : List ℝ) (m1 m2 : Mot) (i1 i2 : List ℝ) (ov : ℝ)
    (h : ∀ x ∈ tic, 0 ≤ x) (h1 : ∀ x ∈ i1, 0 ≤ x) (h2 : ∀ x ∈ i2, 0 ≤ x) :
    C4Prop tic m1 m2 i1 i2 ov := by
  refine ⟨?_, ?_, ?_⟩
  · rw [calc_mic]
    have hf : tic.filter (fun x => decide (0 ≤ x)) = tic := by
      rw [List.filter_eq_self]
      intro a ha
      simpa using h a ha
    simp only [hf]
  · rw [equalize_mot_cols]
    split_ifs with hc hlt
    · exact h1
    · intro x hx
      simp only [List.mem_append, List.mem_replicate] at hx
      rcases hx with (⟨_, rfl⟩ | hx) | ⟨_, rfl⟩
      · exact le_refl 0
      · exact h1 x hx
      · exact le_refl 0
    · exact h1
  · rw [equalize_mot_cols]
    split_ifs with hc hlt
    · exact h2
    · exact h2
    · intro x hx
      simp only [List.mem_append, List.mem_replicate] at hx
      rcases hx with (⟨_, rfl⟩ | hx) | ⟨_, rfl⟩
      · exact le_refl 0
      · exact h2 x hx
      · exact le_refl 0

/-- Witness for C4's amended theorem at the counterexample's inputs. -/
theorem c4_amended_witness :
    (∀ x ∈ [(0 : ℝ), 0, 3], 0 ≤ x)
  ∧ C4Prop [(0 : ℝ), 0, 3] [[1, 0], [1, 0]] [[1, 0], [1, 0], [1, 0]]
      [3, 5] [1, 1, 1] 1 :=
  have h : ∀ x ∈ [(0 : ℝ), 0, 3], 0 ≤ x := by norm_num
  ⟨h, c4_amended _ _ _ _ _ _ h (by norm_num) (by norm_num)⟩

/-! ## C9 — merge idempotence -/

/-- Evaluation of the padded equalization at the C9 counterexample's
inputs: two identical width-2 motifs, minimum overlap 1. -/
lemma c9_equalize :
    equalize_mot_cols [[1, 0], [1, 0]] [[1, 0], [1, 0]]
      [0, 0] [0, 0] 1
      = ([[1, 0], [1, 0]],
         [[-1, -1], [1, 0], [1, 0], [-1, -1]], [0, 0],
         [0, 0, 0, 0]) := by
  have ht : overlapTargets 1 2 2 = (1, 1) := by
    rw [overlapTargets, if_neg (by norm_num)]
    norm_num
  rw [equalize_mot_cols]
  simp [ht, padCol, List.replicate]

/-- SEUCL on the window pair at offset 0 of the counterexample: the only
comparable column is identical on both sides, score 0. -/
lemma c9_seucl_0 :
    compare_seucl [[1, 0], [1, 0]] [[-1, -1], [1, 0]] "sum"
      = some 0 := by
  rw [compare_seucl]
  norm_num [goodCols, colSEUCL, calc_final_score, SCORESTRAT_enum, score_sum,
    List.headI]

/-- SEUCL at offset 1 (the full overlap): both columns identical, 0. -/
lemma c9_seucl_1 :
    compare_seucl [[1, 0], [1, 0]] [[1, 0], [1, 0]] "sum"
      = some 0 := by
  rw [compare_seucl]
  norm_num [goodCols, colSEUCL, calc_final_score, SCORESTRAT_enum, score_sum,
    List.headI]

/-- SEUCL at offset 2: again a single identical comparable column, 0. -/
lemma c9_seucl_2 :
    compare_seucl [[1, 0], [1, 0]] [[1, 0], [-1, -1]] "sum"
      = some 0 := by
  rw [compare_seucl]
  norm_num [goodCols, colSEUCL, calc_final_score, SCORESTRAT_enum, score_sum,
    List.headI]

/-- The three alignment slots of the counterexample all evaluate to 0. -/
lemma c9_slots :
    alignment_slots [[1, 0], [1, 0]]
      [[-1, -1], [1, 0], [1, 0], [-1, -1]] [0, 0] [0, 0, 0, 0]
      2 1 3 2 "SEUCL" 0 false 0 [1, 0] [1, 0] 10 10 "sum"
      = [some 0, some 0, some 0] := by
  have hmic : calc_mic [0, 0] = 0 := by
    rw [calc_mic]
    norm_num [List.filter_cons]
  rw [alignment_slots]
  simp only [List.range_succ, List.range_zero, List.nil_append, List.map_cons,
    List.map_nil, List.cons_append, List.singleton_append]
  norm_num [alignment_slot, hmic, get_compare_ans, METRICS_enum, c9_seucl_0,
    c9_seucl_1, c9_seucl_2]

/-- The offset search of the counterexample: all three offsets score 0
under SEUCL (every overlapping column pair is identical), so the first
offset — a partial overlap, not the full one — is selected. -/
lemma c9_subworker :
    merge_motif_pair_subworker [[1, 0], [1, 0]] [[1, 0], [1, 0]]
      "SEUCL" 1 [0, 0] [0, 0] false 0 0 10 10 [1, 0] [1, 0] "sum"
      = some (0, 0) := by
  rw [merge_motif_pair_subworker]
  simp only [c9_equalize]
  rw [show (max ([[(1 : ℝ), 0], [1, 0]] : Mot).length
      ([[(1 : ℝ), 0], [1, 0]] : Mot).length) = 2 from rfl]
  norm_num
  rw [c9_slots]
  norm_num [seqOpt, return_best_ans, METRICS_enum, ansMinVal,
    return_best_ans_which, ansMinIdx]

/-- Trimming of the aligned pair of the counterexample: only the final
both-padding column goes. -/
lemma c9_trim :
    trim_both_motifs [[1, 0], [1, 0], [-1, -1], [-1, -1]]
      [[-1, -1], [1, 0], [1, 0], [-1, -1]]
      = ([[1, 0], [1, 0], [-1, -1]],
         [[-1, -1], [1, 0], [1, 0]]) := by
  have h1 : trim_left_loop [[1, 0], [1, 0], [-1, -1], [-1, -1]]
      [[-1, -1], [1, 0], [1, 0], [-1, -1]] 0 0 4 = (0, 4) := by
    rw [trim_left_loop]
    norm_num [List.headI]
  have h2 : trim_right_count [[1, 0], [1, 0], [-1, -1], [-1, -1]]
      [[-1, -1], [1, 0], [1, 0], [-1, -1]] 4 = 1 := by
    rw [trim_right_count]
    norm_num [List.headI, trim_right_count]
  rw [trim_both_motifs]
  simp only [List.length_cons, List.length_nil]
  rw [h1]
  simp only [h2]
  norm_num

/-- Shifting the first motif into the padded frame at offset 0: real data
at columns 0 and 1, padding after. -/
lemma c9_add :
    add_motif_columns [[1, 0], [1, 0]] 4 0
      = [[1, 0], [1, 0], [-1, -1], [-1, -1]] := by
  rw [add_motif_columns, show Int.toNat 4 = 4 from rfl,
    show List.range 4 = [0, 1, 2, 3] from rfl]
  norm_num [padCol, List.headI, List.getD, Int.toNat_ofNat,
    List.replicate_succ]

/-- Column-wise combination of the counterexample's aligned pair: keep,
average, keep — three columns. -/
lemma c9_merged :
    get_merged_motif [[1, 0], [1, 0], [-1, -1]]
      [[-1, -1], [1, 0], [1, 0]] 1
      = [[1, 0], [1, 0], [1, 0]] := by
  rw [get_merged_motif]
  norm_num [List.filterMap_cons, List.headI, List.range_succ]

/-- C9, counterexample: merging the uniform two-column motif with an
identical copy of itself at weight 1 and minimum overlap 1 widens it to
three columns — the tied offset search picks offset 0 (a partial
overlap), not the full overlap — so the merge does not reproduce the
original motif. -/
theorem c9_cex :
    merge_motif_pair [[1, 0], [1, 0]] [[1, 0], [1, 0]] "SEUCL"
      1 false [0, 0] [0, 0] 1 false 0 0 10 10 [1, 0] [1, 0] "sum"
    = some [[1, 0], [1, 0], [1, 0]]
  ∧ some [[(1 : ℝ), 0], [1, 0], [1, 0]]
      ≠ some [[(1 : ℝ), 0], [1, 0]] := by
  constructor
  · rw [merge_motif_pair, c9_subworker]
    norm_num [c9_equalize, Int.zero_tmod, Int.zero_tdiv, c9_add, c9_trim,
      c9_merged]
  · intro h
    rw [Option.some.injEq] at h
    have hlen := congrArg List.length h
    simp at hlen

/-- A score vector of the shape every metric produces on a self-pair with
a real first column has a nonempty comparable subset, so every
aggregation strategy succeeds. -/
lemma calc_final_score_isSome (scores : List ℝ) (strat : String) (n : ℕ)
    (good : List Bool) (h : keep_good scores good n ≠ []) :
    (calc_final_score scores strat n good).isSome = true := by
  rw [calc_final_score]
  split
  · rfl
  · rfl
  · rfl
  · exact score_median_isSome h
  · rfl

/-- Every metric's `calc_final_score` call on a self-pair whose first
column is real succeeds: the comparable mask starts with `true`, so the
kept subset is nonempty. -/
lemma compare_shape_isSome (f : Bool → Col × Col → ℝ) (mot : Mot)
    (strat : String) (hne : mot ≠ []) (hhead : 0 ≤ mot.headI.headI) :
    (calc_final_score (List.zipWith f (goodCols mot mot) (mot.zip mot)) strat
      ((goodCols mot mot).count true) (goodCols mot mot)).isSome = true := by
  apply calc_final_score_isSome
  cases mot with
  | nil => exact absurd rfl hne
  | cons c rest =>
      have hc : 0 ≤ c.headI := hhead
      have hgood : (if 0 ≤ c.headI ∧ 0 ≤ c.headI then true else false) = true :=
        if_pos ⟨hc, hc⟩
      rw [goodCols, keep_good]
      simp only [List.zipWith_cons_cons, List.zip_cons_cons, hgood,
        List.filterMap_cons, eq_self_iff_true, if_true]
      exact List.cons_ne_nil _ _

/-- `get_compare_ans` never faults on a self-pair whose first column is
real: low-information slots get the sentinel, unknown metrics keep the
`0.0` initializer, and every metric's aggregation succeeds. -/
lemma get_compare_ans_self_isSome (mot : Mot) (lowic norm : Bool)
    (alignlen tlen : ℕ) (method : String) (ns1 ns2 : ℝ) (bkg1 bkg2 : Bkg)
    (strat : String) (hne : mot ≠ []) (hhead : 0 ≤ mot.headI.headI) :
    (get_compare_ans mot mot lowic norm alignlen tlen method ns1 ns2 bkg1 bkg2
      strat).isSome = true := by
  rw [get_compare_ans]
  split
  all_goals try rfl
  all_goals cases lowic
  all_goals simp only [Bool.false_eq_true, if_false, if_true,
    Option.isSome_map']
  all_goals try rfl
  · rw [compare_eucl]; exact compare_shape_isSome _ mot strat hne hhead
  · rw [compare_kl]; exact compare_shape_isSome _ mot strat hne hhead
  · rw [compare_hell]; exact compare_shape_isSome _ mot strat hne hhead
  · rw [compare_is]; exact compare_shape_isSome _ mot strat hne hhead
  · rw [compare_seucl]; exact compare_shape_isSome _ mot strat hne hhead
  · rw [compare_man]; exact compare_shape_isSome _ mot strat hne hhead
  · rw [compare_pcc]; exact compare_shape_isSome _ mot strat hne hhead
  · rw [compare_sw]; exact compare_shape_isSome _ mot strat hne hhead
  · rw [compare_allr]; exact compare_shape_isSome _ mot strat hne hhead
  · rw [compare_bhat]; exact compare_shape_isSome _ mot strat hne hhead
  · rw [compare_allr_ll]; exact compare_shape_isSome _ mot strat hne hhead

/-- Column combination of a self-pair of all-real columns at weight 1:
`(a·1 + a)/(1 + 1) = a` entry by entry. -/
lemma merged_aux (nrow : ℕ) : ∀ (l : Mot), (∀ c ∈ l, 0 ≤ c.headI) →
    (∀ c ∈ l, c.length = nrow) →
    (l.zip l).filterMap (fun p =>
      if p.1.headI < 0 ∧ 0 ≤ p.2.headI then some p.2
      else if p.2.headI < 0 ∧ 0 ≤ p.1.headI then some p.1
      else if 0 ≤ p.1.headI ∧ 0 ≤ p.2.headI then
        some ((List.range nrow).map fun j =>
          (p.1.getD j 0 * ((1 : ℤ) : ℝ) + p.2.getD j 0) / (((1 : ℤ) : ℝ) + 1))
      else none) = l := by
  intro l
  induction l with
  | nil => intro _ _; rfl
  | cons c r ih =>
      intro h1 h2
      have hc : 0 ≤ c.headI := h1 c (List.mem_cons_self c r)
      rw [List.zip_cons_cons, List.filterMap_cons]
      have hval : (List.range nrow).map (fun j =>
          (c.getD j 0 * ((1 : ℤ) : ℝ) + c.getD j 0) / (((1 : ℤ) : ℝ) + 1))
          = c := by
        have hlen : c.length = nrow := h2 c (List.mem_cons_self c r)
        rw [← hlen]
        apply List.ext_getElem
        · simp
        · intro i hi1 hi2
          simp only [List.getElem_map, List.getElem_range]
          rw [List.getD_eq_getElem c 0 hi2]
          push_cast
          ring
      have hf : (if c.headI < 0 ∧ 0 ≤ c.headI then some c
          else if c.headI < 0 ∧ 0 ≤ c.headI then some c
          else if 0 ≤ c.headI ∧ 0 ≤ c.headI then
            some ((List.range nrow).map fun j =>
              (c.getD j 0 * ((1 : ℤ) : ℝ) + c.getD j 0) / (((1 : ℤ) : ℝ) + 1))
          else none) = some c := by
        rw [if_neg (fun h => absurd h.1 (not_lt.mpr hc)),
          if_neg (fun h => absurd h.1 (not_lt.mpr hc)), if_pos ⟨hc, hc⟩, hval]
      simp only [hf]
      rw [ih (fun x hx => h1 x (List.mem_cons_of_mem c hx))
        (fun x hx => h2 x (List.mem_cons_of_mem c hx))]

/-- The conclusion of C9's amended claim: with reverse complement off and
the minimum overlap equal to the motif's width, merging a motif (all
columns real and rectangular) with an identical copy at weight 1 returns
the motif unchanged. -/
def C9Prop (mot : Mot) (ic : List ℝ) (method strat : String) (norm : Bool)
    (minic ns1 ns2 : ℝ) (bkg1 bkg2 : Bkg) : Prop :=
  merge_motif_pair mot mot method (mot.length : ℝ) false ic ic 1 norm 0 minic
    ns1 ns2 bkg1 bkg2 strat = some mot

/-- C9, amended: with a minimum overlap of the motif's full width (so
equalization is a no-op and the single enumerated offset is the full
overlap) and reverse complement off, merging any nonempty rectangular
motif with real columns with an identical copy at weight 1 reproduces it
exactly, for every metric, strategy, IC array and threshold — the
weighted average `(a·1 + a)/2` of equal columns is the column, and
trimming leaves the motifs untouched.  With padding enabled the best
offset can tie away from the full overlap and widen the result (see the
counterexample). -/
theorem c9_amended (mot : Mot) (ic : List ℝ) (method strat : String)
    (norm : Bool) (minic ns1 ns2 : ℝ) (bkg1 bkg2 : Bkg)
    (hne : mot ≠ []) (hreal : ∀ c ∈ mot, 0 ≤ c.headI)
    (hrect : ∀ c ∈ mot, c.length = mot.headI.length) :
    C9Prop mot ic method strat norm minic ns1 ns2 bkg1 bkg2 := by
  have hpos : 0 < mot.length := List.length_pos.mpr hne
  have hhead : 0 ≤ mot.headI.headI := by
    apply hreal
    cases mot with
    | nil => exact absurd rfl hne
    | cons c r => exact List.mem_cons_self c r
  have hEq : equalize_mot_cols mot mot ic ic (mot.length : ℝ)
      = (mot, mot, ic, ic) := by
    have h1 : overlapTargets (mot.length : ℝ) mot.length mot.length
        = (mot.length, mot.length) := by
      rw [overlapTargets, if_neg]
      · rw [Nat.floor_natCast]
      · exact not_lt.mpr (by exact_mod_cast hpos)
    rw [equalize_mot_cols, h1]
    simp
  have hsub : ∃ r w, merge_motif_pair_subworker mot mot method
      (mot.length : ℝ) ic ic norm 0 minic ns1 ns2 bkg1 bkg2 strat
      = some (r, w) := by
    rw [merge_motif_pair_subworker]
    simp only [hEq, min_self, Nat.add_sub_cancel, one_mul]
    rw [alignment_slots]
    rw [show (1 : ℕ) * 1 = 1 from rfl, show List.range 1 = [0] from rfl]
    simp only [List.map_cons, List.map_nil]
    rw [alignment_slot]
    simp only [Nat.zero_div, Nat.zero_mod, List.drop_zero, List.take_length]
    rw [if_neg (lt_irrefl (0 : ℝ))]
    obtain ⟨v, hv⟩ := Option.isSome_iff_exists.mp
      (get_compare_ans_self_isSome mot _ norm _ _ method ns1 ns2 bkg1 bkg2
        strat hne hhead)
    rw [hv]
    exact ⟨_, _, rfl⟩
  have htrim : trim_both_motifs mot mot = (mot, mot) := by
    have hcond0 : ¬((mot.getD 0 []).headI < 0 ∧ (mot.getD 0 []).headI < 0) := by
      intro h
      rw [List.getD_eq_getElem mot [] hpos] at h
      exact absurd h.1 (not_lt.mpr (hreal _ (List.getElem_mem hpos)))
    have hl : trim_left_loop mot mot 0 0 mot.length = (0, mot.length) := by
      rw [trim_left_loop, if_pos hpos, if_neg hcond0]
    have hr : trim_right_count mot mot mot.length = 0 := by
      cases hn : mot.length with
      | zero => rfl
      | succ n =>
          have hn2 : n < mot.length := by omega
          rw [trim_right_count, if_neg]
          intro h
          rw [List.getD_eq_getElem mot [] hn2] at h
          exact absurd h.1 (not_lt.mpr (hreal _ (List.getElem_mem hn2)))
    rw [trim_both_motifs]
    simp only [hl, hr, Nat.sub_zero]
    rw [if_pos hpos]
    simp [List.take_length]
  have hmerge : get_merged_motif mot mot 1 = mot := by
    rw [get_merged_motif]
    exact merged_aux mot.headI.length mot hreal hrect
  obtain ⟨r, w, hsubEq⟩ := hsub
  show merge_motif_pair mot mot method (mot.length : ℝ) false ic ic 1 norm 0
    minic ns1 ns2 bkg1 bkg2 strat = some mot
  rw [merge_motif_pair, hsubEq]
  simp only [hEq, lt_self_iff_false, if_false, Bool.false_eq_true, htrim,
    hmerge]

/-- Witness for C9's amended theorem at a concrete two-column motif with
distinct, rectangular, all-real columns. -/
theorem c9_amended_witness :
    (([[(1 : ℝ), 0], [0, 1]] : Mot) ≠ [])
  ∧ (∀ c ∈ ([[(1 : ℝ), 0], [0, 1]] : Mot), 0 ≤ c.headI)
  ∧ (∀ c ∈ ([[(1 : ℝ), 0], [0, 1]] : Mot),
      c.length = ([[(1 : ℝ), 0], [0, 1]] : Mot).headI.length)
  ∧ C9Prop [[(1 : ℝ), 0], [0, 1]] [1, 1] "EUCL" "sum" false 0 10 10
      [1/2, 1/2] [1/2, 1/2] :=
  ⟨by simp, by norm_num [List.headI], by norm_num [List.headI],
    c9_amended [[(1 : ℝ), 0], [0, 1]] [1, 1] "EUCL" "sum" false 0 10 10
      [1/2, 1/2] [1/2, 1/2] (by simp) (by norm_num [List.headI])
      (by norm_num [List.headI])⟩

/-! ## C10 — median aggregation on an empty comparable subset -/

/-- C10: with every column non-comparable, `calc_final_score` hands
`score_median` the empty array, whose even-count branch reads index
`size/2 - 1` (wrapping to `SIZE_MAX` in `std::size_t`) and `size/2` of
that empty array — modelled as the failing (`none`) lookup; a nonempty
comparable subset always succeeds, so one comparable column is exactly the
safety precondition. -/
theorem c10_median_empty_unsafe (scores : List ℝ) (good : List Bool) (n : ℕ)
    (hg : ∀ b ∈ good, b = false) :
    calc_final_score scores "median" n good = none
  ∧ score_median ([] : List ℝ) = none
  ∧ ∀ l : List ℝ, l ≠ [] → (score_median l).isSome = true := by
  have hempty : keep_good scores good n = [] := by
    rw [keep_good, List.filterMap_eq_nil_iff]
    intro p hp
    have h2 := hg p.2 (List.of_mem_zip hp).2
    simp [h2]
  have hnil : score_median ([] : List ℝ) = none := by
    rw [score_median]
    simp [List.insertionSort]
  refine ⟨?_, hnil, fun l hl => score_median_isSome hl⟩
  have h1 : calc_final_score scores "median" n good
      = score_median (keep_good scores good n) := rfl
  rw [h1, hempty, hnil]

/-- Witness for C10 at the concrete inputs `scores = [3]`,
`good = [false]`. -/
theorem c10_witness :
    (∀ b ∈ [false], b = false)
  ∧ (calc_final_score [(3 : ℝ)] "median" 1 [false] = none
    ∧ score_median ([] : List ℝ) = none
    ∧ ∀ l : List ℝ, l ≠ [] → (score_median l).isSome = true) :=
  ⟨by simp, c10_median_empty_unsafe [(3 : ℝ)] [false] 1 (by simp)⟩

end



